import Mathlib

/-!
gke-metadata-server: credential configuration and server start-up.

A shallow embedding of

* `internal/googlecredentials/google_credentials.go`: the provider-name
  pattern, `NewConfig`, `Config.Get` and `Config.WorkloadIdentityProviderAudience`;
* `cmd/server.go`: the `RunE` closure of `newServerCommand` and the flag defaults.

Go strings are modelled by `String` (sequences of Unicode code points, i.e. the
valid UTF-8 strings of Go).  The only regular expression of the program is
matched by a small backtracking matcher with the leftmost-first, greedy semantics
of Go's `regexp` package for the constructs the pattern uses.
-/

namespace GkeMetadataServer

/-! ## The regular-expression fragment used by the program -/

namespace Regexp

/-- Character classes of the pattern: `\d` (ASCII digits only in Go) and a
negated bracket class such as `[^/]` (which also matches a newline). -/
inductive CharClass where
  | perlDigit
  | negated (set : List Char)

/-- Membership of a character in a class. -/
def CharClass.contains : CharClass → Char → Bool
  | .perlDigit, c => c.isDigit
  | .negated set, c => !(set.elem c)

/-- Pieces of a pattern, in the order they are written. -/
inductive Node where
  /-- The anchor `^` without the multi-line flag: beginning of the text. -/
  | beginText
  /-- The anchor `$` without the multi-line flag: end of the text. -/
  | endText
  /-- A run of literal characters. -/
  | literal (s : String)
  /-- The repetition `x+` of a one-character class `x`, greedy. -/
  | plus (cls : CharClass)
  /-- The opening parenthesis of capture group 1. -/
  | capOpen
  /-- The closing parenthesis of capture group 1. -/
  | capClose

/-- Positions of capture group 1 (`none` while unset). -/
structure Caps where
  start : Option Nat := none
  stop : Option Nat := none
deriving DecidableEq

/-- A match: offsets of the whole match and of capture group 1. -/
structure Match where
  start : Nat
  stop : Nat
  caps : Caps
deriving DecidableEq

/-- Remove a literal from the front of the input, if it is there. -/
def dropLiteral : List Char → List Char → Option (List Char)
  | [], cs => some cs
  | _ :: _, [] => none
  | p :: ps, c :: cs => if c = p then dropLiteral ps cs else none

/-- Greedy `x+` followed by the continuation `k`: take one character of the
class, prefer taking more, and fall back to continuing right here. -/
def plusGreedy {α : Type} (cls : CharClass) (k : Nat → List Char → Option α) :
    Nat → List Char → Option α
  | _, [] => none
  | pos, c :: cs =>
    if cls.contains c then
      match plusGreedy cls k (pos + 1) cs with
      | some r => some r
      | none => k (pos + 1) cs
    else none

/-- Match the nodes at offset `pos`, where `cs` is the rest of the text from
that offset; the first successful alternative in priority order wins. -/
def matchHere : List Node → Nat → Caps → List Char → Option (Nat × Caps)
  | [], pos, caps, _ => some (pos, caps)
  | .beginText :: r, pos, caps, cs =>
    if pos = 0 then matchHere r pos caps cs else none
  | .endText :: r, pos, caps, cs =>
    if cs.isEmpty then matchHere r pos caps cs else none
  | .literal s :: r, pos, caps, cs =>
    match dropLiteral s.data cs with
    | some rest => matchHere r (pos + s.data.length) caps rest
    | none => none
  | .plus cls :: r, pos, caps, cs =>
    plusGreedy cls (fun p rest => matchHere r p caps rest) pos cs
  | .capOpen :: r, pos, caps, cs =>
    matchHere r pos { caps with start := some pos } cs
  | .capClose :: r, pos, caps, cs =>
    matchHere r pos { caps with stop := some pos } cs

/-- Unanchored search: the leftmost offset at which the nodes match. -/
def searchFrom (nodes : List Node) : Nat → List Char → Option Match
  | pos, [] =>
    match matchHere nodes pos {} [] with
    | some (stop, caps) => some { start := pos, stop := stop, caps := caps }
    | none => none
  | pos, c :: cs =>
    match matchHere nodes pos {} (c :: cs) with
    | some (stop, caps) => some { start := pos, stop := stop, caps := caps }
    | none => searchFrom nodes (pos + 1) cs

end Regexp

/-- A compiled regular expression: its source text (what `String()` returns)
and its nodes. -/
structure Regexp where
  expr : String
  prog : List Regexp.Node

/-- The submatch offsets of the leftmost match of `re` in `s`, if any. -/
def Regexp.find (re : Regexp) (s : String) : Option Regexp.Match :=
  Regexp.searchFrom re.prog 0 s.data

/-- The slice `s[i:j]` of a Go string. -/
def slice (s : String) (i j : Nat) : String :=
  ⟨(s.data.drop i).take (j - i)⟩

/-- Whether `s` contains a match of `re`: `(*Regexp).MatchString`. -/
def Regexp.MatchString (re : Regexp) (s : String) : Bool :=
  (re.find s).isSome

/-- The text of the leftmost match and of capture group 1, or the empty (nil)
slice when there is no match: `(*Regexp).FindStringSubmatch` for an expression
with one group.  An unset group yields the empty string. -/
def Regexp.FindStringSubmatch (re : Regexp) (s : String) : List String :=
  match re.find s with
  | none => []
  | some m =>
    [slice s m.start m.stop,
     match m.caps.start, m.caps.stop with
     | some i, some j => slice s i j
     | _, _ => ""]

/-! ## `internal/googlecredentials` -/

/-- The options of a credential configuration. -/
structure ConfigOptions where
  WorkloadIdentityProvider : String
deriving DecidableEq

/-- A credential configuration. -/
structure Config where
  opts : ConfigOptions
deriving DecidableEq

/-- The pattern
`^projects/\d+/locations/global/workloadIdentityPools/([^/]+)/providers/[^/]+$`
as compiled by `regexp.MustCompile`. -/
def workloadIdentityProviderRegex : Regexp where
  expr := "^projects/\\d+/locations/global/workloadIdentityPools/([^/]+)/providers/[^/]+$"
  prog :=
    [ .beginText,
      .literal "projects/",
      .plus .perlDigit,
      .literal "/locations/global/workloadIdentityPools/",
      .capOpen,
      .plus (.negated ['/']),
      .capClose,
      .literal "/providers/",
      .plus (.negated ['/']),
      .endText ]

/-- The OAuth scopes requested for the credentials. -/
def AccessScopes : List String :=
  [ "https://www.googleapis.com/auth/cloud-platform",
    "https://www.googleapis.com/auth/userinfo.email" ]

/-- The three values returned by `NewConfig`: `(*Config, string, error)`; the
error is represented by its message. -/
structure NewConfigResult where
  config : Option Config
  workloadIdentityPool : String
  err : Option String
deriving DecidableEq

/-- Validate the provider name and extract the pool segment.  The result is
`none` when the index expression `[1]` is out of range (a run-time panic in Go). -/
def NewConfig (opts : ConfigOptions) : Option NewConfigResult :=
  if !workloadIdentityProviderRegex.MatchString opts.WorkloadIdentityProvider then
    some { config := none,
           workloadIdentityPool := "",
           err := some ("workload identity provider name does not match pattern "
                        ++ workloadIdentityProviderRegex.expr) }
  else
    match (workloadIdentityProviderRegex.FindStringSubmatch opts.WorkloadIdentityProvider)[1]? with
    | none => none
    | some workloadIdentityPool =>
      some { config := some { opts := opts },
             workloadIdentityPool := workloadIdentityPool,
             err := none }

/-- The audience of the workload identity provider. -/
def Config.WorkloadIdentityProviderAudience (c : Config) : String :=
  "//iam.googleapis.com/" ++ c.opts.WorkloadIdentityProvider

/-- A value stored in a `map[string]any` of the program: a string or a nested
map with string keys. -/
inductive Value where
  | str (s : String)
  | map (entries : List (String × Value))

/-- A Go map with string keys, as the list of its entries (keys are distinct). -/
abbrev GoMap := List (String × Value)

/-- Lookup `m[k]`. -/
def GoMap.get? (m : GoMap) (k : String) : Option Value :=
  m.lookup k

/-- Assignment `m[k] = v`: replace the entry of `k` or add one. -/
def GoMap.set (m : GoMap) (k : String) (v : Value) : GoMap :=
  if (m.lookup k).isSome then m.map (fun e => if e.1 = k then (k, v) else e)
  else m ++ [(k, v)]

/-- The keys of a map. -/
def GoMap.keys (m : GoMap) : List String :=
  m.map Prod.fst

/-- The map `conf` that `Config.Get` builds and hands, as JSON, to
`google.CredentialsFromJSON`. -/
def Config.conf (c : Config) (credFile : String) (googleServiceAccountEmail : Option String) :
    GoMap :=
  let conf : GoMap :=
    [ ("universe_domain", .str "googleapis.com"),
      ("type", .str "external_account"),
      ("audience", .str c.WorkloadIdentityProviderAudience),
      ("subject_token_type", .str "urn:ietf:params:oauth:token-type:jwt"),
      ("token_url", .str "https://sts.googleapis.com/v1/token"),
      ("credential_source", .map
        [ ("file", .str credFile),
          ("format", .map [("type", .str "text")]) ]) ]
  match googleServiceAccountEmail with
  | some email =>
    conf.set "service_account_impersonation_url"
      (.str ("https://iamcredentials.googleapis.com/v1/projects/-/serviceAccounts/"
             ++ email ++ ":generateAccessToken"))
  | none =>
    conf.set "token_info_url" (.str "https://sts.googleapis.com/v1/introspect")

/-- Build the credentials: `Config.Get`.  `credentialsFromJSON` stands for
`google.CredentialsFromJSON` applied to the marshalled map (marshalling a map of
strings cannot fail). -/
def Config.Get {Credentials : Type}
    (credentialsFromJSON : GoMap → List String → Except String Credentials)
    (c : Config) (credFile : String) (googleServiceAccountEmail : Option String) :
    Except String Credentials :=
  match credentialsFromJSON (c.conf credFile googleServiceAccountEmail) AccessScopes with
  | .error err => .error ("error creating google credentials from json: " ++ err)
  | .ok creds => .ok creds

/-! ## `cmd/server.go` -/

/-- A service account reference: `serviceaccounts.Reference`. -/
structure Reference where
  Name : String
  Namespace : String
deriving DecidableEq

/-- The address family tag of a `netip.Addr` (its field `z`): the zero value,
IPv4, IPv6 without a zone, IPv6 with a zone. -/
inductive AddrZone where
  | z0
  | z4
  | z6noz
  | z6 (zone : String)
deriving DecidableEq

/-- A `netip.Addr`: 128 address bits in two 64-bit halves, and the family tag. -/
structure Addr where
  hi : Nat
  lo : Nat
  z : AddrZone
deriving DecidableEq

/-- Whether the address is an IPv4 address: `netip.Addr.Is4`. -/
def Addr.Is4 (ip : Addr) : Bool :=
  ip.z == .z4

/-- Whether the address is an IPv6 address, IPv4-mapped ones included:
`netip.Addr.Is6`. -/
def Addr.Is6 (ip : Addr) : Bool :=
  ip.z != .z0 && ip.z != .z4

/-- Whether the address is an IPv4-mapped IPv6 address: `netip.Addr.Is4In6`. -/
def Addr.Is4In6 (ip : Addr) : Bool :=
  ip.Is6 && ip.hi == 0 && ip.lo / 2 ^ 32 == 0xffff

/-- The Kubernetes client handle. -/
structure KubeClient where
  id : Nat
deriving DecidableEq

/-- The metrics registry handle. -/
structure MetricsRegistry where
  id : Nat
deriving DecidableEq

/-- The variables bound to the command-line flags. -/
structure Flags where
  serverPort : Int
  workloadIdentityProvider : String
  nodePoolServiceAccountName : String
  nodePoolServiceAccountNamespace : String
  watchPods : Bool
  watchPodsResyncPeriod : Int
  watchPodsDisableFallback : Bool
  watchNode : Bool
  watchNodeResyncPeriod : Int
  watchNodeDisableFallback : Bool
  watchServiceAccounts : Bool
  watchServiceAccountsResyncPeriod : Int
  watchServiceAccountsDisableFallback : Bool
  cacheTokens : Bool
  cacheTokensConcurrency : Int
deriving DecidableEq

/-- One second, minute, hour of `time.Duration` (nanoseconds). -/
def Second : Int := 1000000000

/-- One minute. -/
def Minute : Int := 60 * Second

/-- One hour. -/
def Hour : Int := 60 * Minute

/-- The defaults given to the flags by `newServerCommand`. -/
def defaultFlags : Flags where
  serverPort := 8080
  workloadIdentityProvider := ""
  nodePoolServiceAccountName := ""
  nodePoolServiceAccountNamespace := ""
  watchPods := false
  watchPodsResyncPeriod := 10 * Minute
  watchPodsDisableFallback := false
  watchNode := false
  watchNodeResyncPeriod := Hour
  watchNodeDisableFallback := false
  watchServiceAccounts := false
  watchServiceAccountsResyncPeriod := Hour
  watchServiceAccountsDisableFallback := false
  cacheTokens := false
  cacheTokensConcurrency := 10

/-- What `RunE` reads from and calls in its environment: the process
environment, `netip.ParseAddr`, the debug level of the logger, and the results of
the calls that can fail. -/
structure World where
  getenv : String → String
  parseAddr : String → Except String Addr
  debug : Bool
  loadAndAttachBPF : Addr → Int → Bool → Option String
  createKubernetesClient : Except String KubeClient
  metricsRegistry : MetricsRegistry
  shutdown : Option String

/-- Options of the direct pod provider: `listpods.ProviderOptions`. -/
structure ListPodsProviderOptions where
  NodeName : String
  KubeClient : KubeClient
deriving DecidableEq

/-- The direct pod provider, determined by its options. -/
structure ListPodsProvider where
  opts : ListPodsProviderOptions
deriving DecidableEq

/-- Options of the watched pod provider: `watchpods.ProviderOptions`. -/
structure WatchPodsProviderOptions where
  FallbackSource : Option ListPodsProvider
  NodeName : String
  KubeClient : KubeClient
  MetricsRegistry : MetricsRegistry
  ResyncPeriod : Int
deriving DecidableEq

/-- The watched pod provider, determined by its options. -/
structure WatchPodsProvider where
  opts : WatchPodsProviderOptions
deriving DecidableEq

/-- A value of the pod provider interface. -/
inductive PodsProvider where
  | direct (p : ListPodsProvider)
  | watched (p : WatchPodsProvider)
deriving DecidableEq

/-- Options of the direct node provider: `getnode.ProviderOptions`. -/
structure GetNodeProviderOptions where
  NodeName : String
  KubeClient : KubeClient
deriving DecidableEq

/-- The direct node provider. -/
structure GetNodeProvider where
  opts : GetNodeProviderOptions
deriving DecidableEq

/-- Options of the watched node provider: `watchnode.ProviderOptions`. -/
structure WatchNodeProviderOptions where
  FallbackSource : Option GetNodeProvider
  NodeName : String
  KubeClient : KubeClient
  ResyncPeriod : Int
deriving DecidableEq

/-- The watched node provider. -/
structure WatchNodeProvider where
  opts : WatchNodeProviderOptions
deriving DecidableEq

/-- A value of the node provider interface. -/
inductive NodeProvider where
  | direct (p : GetNodeProvider)
  | watched (p : WatchNodeProvider)
deriving DecidableEq

/-- Options of the direct service account provider:
`getserviceaccount.ProviderOptions`. -/
structure GetServiceAccountProviderOptions where
  KubeClient : KubeClient
deriving DecidableEq

/-- The direct service account provider. -/
structure GetServiceAccountProvider where
  opts : GetServiceAccountProviderOptions
deriving DecidableEq

/-- Options of the watched service account provider:
`watchserviceaccounts.ProviderOptions`. -/
structure WatchServiceAccountsProviderOptions where
  FallbackSource : Option GetServiceAccountProvider
  KubeClient : KubeClient
  MetricsRegistry : MetricsRegistry
  ResyncPeriod : Int
deriving DecidableEq

/-- The watched service account provider. -/
structure WatchServiceAccountsProvider where
  opts : WatchServiceAccountsProviderOptions
deriving DecidableEq

/-- A value of the service account provider interface. -/
inductive ServiceAccountsProvider where
  | direct (p : GetServiceAccountProvider)
  | watched (p : WatchServiceAccountsProvider)
deriving DecidableEq

/-- Options of the token creation provider:
`createserviceaccounttoken.ProviderOptions`. -/
structure CreateTokenProviderOptions where
  GoogleCredentialsConfig : Option Config
  KubeClient : KubeClient
deriving DecidableEq

/-- The token creation provider. -/
structure CreateTokenProvider where
  opts : CreateTokenProviderOptions
deriving DecidableEq

/-- Options of the token cache provider:
`cacheserviceaccounttokens.ProviderOptions`. -/
structure CacheTokensProviderOptions where
  Source : CreateTokenProvider
  ServiceAccounts : ServiceAccountsProvider
  MetricsRegistry : MetricsRegistry
  Concurrency : Int
  NodePoolServiceAccount : Option Reference
deriving DecidableEq

/-- The token cache provider. -/
structure CacheTokensProvider where
  opts : CacheTokensProviderOptions
deriving DecidableEq

/-- A value of the token provider interface. -/
inductive TokensProvider where
  | create (p : CreateTokenProvider)
  | cache (p : CacheTokensProvider)
deriving DecidableEq

/-- The options handed to `server.New`: `server.ServerOptions`. -/
structure ServerOptions where
  NodeName : String
  ServerPort : Int
  Pods : PodsProvider
  Node : NodeProvider
  ServiceAccounts : ServiceAccountsProvider
  ServiceAccountTokens : TokensProvider
  MetricsRegistry : MetricsRegistry
  NodePoolServiceAccount : Option Reference
  WorkloadIdentityPool : String
deriving DecidableEq

/-- A watched provider, as the receiver of `AddListener`, `Start` and `Close`. -/
inductive Watched where
  | pods (p : WatchPodsProvider)
  | node (p : WatchNodeProvider)
  | serviceAccounts (p : WatchServiceAccountsProvider)
deriving DecidableEq

/-- The calls `RunE` makes into its collaborators, in the order of execution. -/
inductive Action where
  | loadAndAttachBPF (emulatorIP : Addr) (serverPort : Int) (debug : Bool)
  | createKubernetesClient
  | newRegistry
  | newListPodsProvider (opts : ListPodsProviderOptions)
  | newWatchPodsProvider (opts : WatchPodsProviderOptions)
  | newGetNodeProvider (opts : GetNodeProviderOptions)
  | newWatchNodeProvider (opts : WatchNodeProviderOptions)
  | newGetServiceAccountProvider (opts : GetServiceAccountProviderOptions)
  | newWatchServiceAccountsProvider (opts : WatchServiceAccountsProviderOptions)
  | newCreateTokenProvider (opts : CreateTokenProviderOptions)
  | newCacheTokensProvider (opts : CacheTokensProviderOptions)
  | addListener (target : Watched) (listener : CacheTokensProvider)
  | start (target : Watched)
  | serverNew (opts : ServerOptions)
  | waitForShutdown
  | serverShutdown
  | cancel
  | closeCacheTokensProvider (p : CacheTokensProvider)
  | close (target : Watched)
  | closeBPF
deriving DecidableEq

/-- The errors `RunE` returns from its validation part. -/
inductive ConfigError where
  | nodeNameMissing
  | podIPMissing
  | podIPParse (cause : String)
  | podIPNotIPv4
  | nodePoolServiceAccountFlags
  | newConfig (message : String)
deriving DecidableEq

/-- The message of a validation error. -/
def ConfigError.Error : ConfigError → String
  | .nodeNameMissing => "NODE_NAME environment variable must be specified"
  | .podIPMissing => "POD_IP environment variable must be specified"
  | .podIPParse cause => "error parsing POD_IP environment variable: " ++ cause
  | .podIPNotIPv4 => "POD_IP environment variable must be an IPv4 address"
  | .nodePoolServiceAccountFlags =>
    "--node-pool-service-account-name and --node-pool-service-account-namespace "
      ++ "arguments must be either both specified or both empty"
  | .newConfig message => message

/-- The errors of the part after validation, which the deferred handler turns
into a fatal log entry. -/
inductive RuntimeError where
  | loadBPF (cause : String)
  | kubeClient (cause : String)
  | shutdown (cause : String)
deriving DecidableEq

/-- The message of a runtime error. -/
def RuntimeError.Error : RuntimeError → String
  | .loadBPF cause => "error loading eBPF redirect program: " ++ cause
  | .kubeClient cause => "error creating k8s client: " ++ cause
  | .shutdown cause => "error in server graceful shutdown: " ++ cause

/-- How `RunE` ends: it returns an error value (`none` is nil), the deferred
handler logs a runtime error with `Fatal` (which exits the process), or it
panics. -/
inductive Exit where
  | returned (err : Option ConfigError)
  | fatal (err : RuntimeError)
  | panicked
deriving DecidableEq

/-- The observable behaviour of one run of `RunE`. -/
structure Outcome where
  exit : Exit
  trace : List Action
deriving DecidableEq

/-- The reference built from the two node-pool service account flags once they
are known to be consistent: nil unless the name is set. -/
def nodePoolServiceAccountOf (nodePoolServiceAccountName nodePoolServiceAccountNamespace : String) :
    Option Reference :=
  let nodePoolSANameSet := nodePoolServiceAccountName != ""
  if nodePoolSANameSet then
    some { Name := nodePoolServiceAccountName, Namespace := nodePoolServiceAccountNamespace }
  else none

/-- The part of `RunE` from `metrics.NewRegistry()` on, once the redirect program
is attached and the Kubernetes client exists: the providers, the listeners, the
starts, the server and its shutdown.  The trace lists the two earlier calls, the
calls made here in order, and the deferred calls in reverse order of
registration. -/
def RunE.serve (w : World) (f : Flags) (nodeName : String) (emulatorIP : Addr)
    (nodePoolServiceAccount : Option Reference) (googleCredentialsConfig : Option Config)
    (workloadIdentityPool : String) (kubeClient : KubeClient) : Outcome :=
  let metricsRegistry := w.metricsRegistry
  -- create pod provider
  let podsOpts : ListPodsProviderOptions := { NodeName := nodeName, KubeClient := kubeClient }
  let directPods : ListPodsProvider := { opts := podsOpts }
  let wpOpts : WatchPodsProviderOptions :=
    { FallbackSource := if f.watchPodsDisableFallback then none else some directPods,
      NodeName := nodeName,
      KubeClient := kubeClient,
      MetricsRegistry := metricsRegistry,
      ResyncPeriod := f.watchPodsResyncPeriod }
  let wp : Option WatchPodsProvider := if f.watchPods then some { opts := wpOpts } else none
  let pods : PodsProvider :=
    match wp with
    | some p => .watched p
    | none => .direct directPods
  -- create node provider
  let nodeOpts : GetNodeProviderOptions := { NodeName := nodeName, KubeClient := kubeClient }
  let directNode : GetNodeProvider := { opts := nodeOpts }
  let wnOpts : WatchNodeProviderOptions :=
    { FallbackSource := if f.watchNodeDisableFallback then none else some directNode,
      NodeName := nodeName,
      KubeClient := kubeClient,
      ResyncPeriod := f.watchNodeResyncPeriod }
  let wn : Option WatchNodeProvider := if f.watchNode then some { opts := wnOpts } else none
  let node : NodeProvider :=
    match wn with
    | some p => .watched p
    | none => .direct directNode
  -- create service account provider
  let saOpts : GetServiceAccountProviderOptions := { KubeClient := kubeClient }
  let directServiceAccounts : GetServiceAccountProvider := { opts := saOpts }
  let wsaOpts : WatchServiceAccountsProviderOptions :=
    { FallbackSource :=
        if f.watchServiceAccountsDisableFallback then none else some directServiceAccounts,
      KubeClient := kubeClient,
      MetricsRegistry := metricsRegistry,
      ResyncPeriod := f.watchServiceAccountsResyncPeriod }
  let wsa : Option WatchServiceAccountsProvider :=
    if f.watchServiceAccounts then some { opts := wsaOpts } else none
  let serviceAccounts : ServiceAccountsProvider :=
    match wsa with
    | some p => .watched p
    | none => .direct directServiceAccounts
  -- create service account token provider
  let tokenOpts : CreateTokenProviderOptions :=
    { GoogleCredentialsConfig := googleCredentialsConfig, KubeClient := kubeClient }
  let createTokens : CreateTokenProvider := { opts := tokenOpts }
  let cacheOpts : CacheTokensProviderOptions :=
    { Source := createTokens,
      ServiceAccounts := serviceAccounts,
      MetricsRegistry := metricsRegistry,
      Concurrency := f.cacheTokensConcurrency,
      NodePoolServiceAccount := nodePoolServiceAccount }
  let p : Option CacheTokensProvider := if f.cacheTokens then some { opts := cacheOpts } else none
  let serviceAccountTokens : TokensProvider :=
    match p with
    | some p => .cache p
    | none => .create createTokens
  let serverOpts : ServerOptions :=
    { NodeName := nodeName,
      ServerPort := f.serverPort,
      Pods := pods,
      Node := node,
      ServiceAccounts := serviceAccounts,
      ServiceAccountTokens := serviceAccountTokens,
      MetricsRegistry := metricsRegistry,
      NodePoolServiceAccount := nodePoolServiceAccount,
      WorkloadIdentityPool := workloadIdentityPool }
  let calls : List Action :=
    [.loadAndAttachBPF emulatorIP f.serverPort w.debug, .createKubernetesClient, .newRegistry]
    -- create pod provider
    ++ [.newListPodsProvider podsOpts]
    ++ (match wp with
        | some _ => [.newWatchPodsProvider wpOpts]
        | none => [])
    -- create node provider
    ++ [.newGetNodeProvider nodeOpts]
    ++ (match wn with
        | some _ => [.newWatchNodeProvider wnOpts]
        | none => [])
    -- create service account provider
    ++ [.newGetServiceAccountProvider saOpts]
    ++ (match wsa with
        | some _ => [.newWatchServiceAccountsProvider wsaOpts]
        | none => [])
    -- create service account token provider
    ++ [.newCreateTokenProvider tokenOpts]
    ++ (match p with
        | some p =>
          [.newCacheTokensProvider cacheOpts]
          ++ (match wp with
              | some wp => [.addListener (.pods wp) p]
              | none => [])
          ++ (match wsa with
              | some wsa => [.addListener (.serviceAccounts wsa) p]
              | none => [])
        | none => [])
    -- start server
    ++ (match wp with
        | some wp => [.start (.pods wp)]
        | none => [])
    ++ (match wn with
        | some wn => [.start (.node wn)]
        | none => [])
    ++ (match wsa with
        | some wsa => [.start (.serviceAccounts wsa)]
        | none => [])
    ++ [.serverNew serverOpts, .waitForShutdown, .serverShutdown]
  let deferred : List Action :=
    [.cancel]
    ++ (match p with
        | some p => [.closeCacheTokensProvider p]
        | none => [])
    ++ (match wsa with
        | some wsa => [.close (.serviceAccounts wsa)]
        | none => [])
    ++ (match wn with
        | some wn => [.close (.node wn)]
        | none => [])
    ++ (match wp with
        | some wp => [.close (.pods wp)]
        | none => [])
    ++ [.closeBPF]
  { exit :=
      match w.shutdown with
      | some cause => .fatal (.shutdown cause)
      | none => .returned none,
    trace := calls ++ deferred }

/-- The part of `RunE` below "now there are only runtime errors below": the
redirect program and the Kubernetes client, then the rest.  An error of this
part is turned into a fatal log entry by the handler deferred first, after the
other deferred calls have run. -/
def RunE.runtime (w : World) (f : Flags) (nodeName : String) (emulatorIP : Addr)
    (nodePoolServiceAccount : Option Reference) (googleCredentialsConfig : Option Config)
    (workloadIdentityPool : String) : Outcome :=
  -- install ebpf redirect program
  match w.loadAndAttachBPF emulatorIP f.serverPort w.debug with
  | some cause =>
    { exit := .fatal (.loadBPF cause),
      trace := [.loadAndAttachBPF emulatorIP f.serverPort w.debug] }
  | none =>
  -- create clients
  match w.createKubernetesClient with
  | .error cause =>
    { exit := .fatal (.kubeClient cause),
      trace := [.loadAndAttachBPF emulatorIP f.serverPort w.debug, .createKubernetesClient,
                .closeBPF] }
  | .ok kubeClient =>
  RunE.serve w f nodeName emulatorIP nodePoolServiceAccount googleCredentialsConfig
    workloadIdentityPool kubeClient

/-- The `RunE` closure of the server command. -/
def RunE (w : World) (f : Flags) : Outcome :=
  -- validate input
  let nodeName := w.getenv "NODE_NAME"
  if nodeName = "" then
    { exit := .returned (some .nodeNameMissing), trace := [] }
  else
  let podIP := w.getenv "POD_IP"
  if podIP = "" then
    { exit := .returned (some .podIPMissing), trace := [] }
  else
  match w.parseAddr podIP with
  | .error cause =>
    { exit := .returned (some (.podIPParse cause)), trace := [] }
  | .ok emulatorIP =>
  if !emulatorIP.Is4 then
    { exit := .returned (some .podIPNotIPv4), trace := [] }
  else
  let nodePoolSANameSet := f.nodePoolServiceAccountName != ""
  let nodePoolSANamespaceSet := f.nodePoolServiceAccountNamespace != ""
  if nodePoolSANameSet != nodePoolSANamespaceSet then
    { exit := .returned (some .nodePoolServiceAccountFlags), trace := [] }
  else
  let nodePoolServiceAccount :=
    nodePoolServiceAccountOf f.nodePoolServiceAccountName f.nodePoolServiceAccountNamespace
  match NewConfig { WorkloadIdentityProvider := f.workloadIdentityProvider } with
  | none => { exit := .panicked, trace := [] }
  | some r =>
  match r.err with
  | some message =>
    { exit := .returned (some (.newConfig message)), trace := [] }
  | none =>
  -- now there are only runtime errors below
  RunE.runtime w f nodeName emulatorIP nodePoolServiceAccount r.config r.workloadIdentityPool

/-! ## Vocabulary of the statements -/

/-- The documented form of a provider resource name (see the help text of the
`--workload-identity-provider` flag):
`projects/<project_number>/locations/global/workloadIdentityPools/<pool_name>/providers/<provider_name>`. -/
def providerName (d pool prov : String) : String :=
  "projects/" ++ d ++ "/locations/global/workloadIdentityPools/" ++ pool ++ "/providers/" ++ prov

/-- One or more ASCII digits. -/
def IsProjectNumber (d : String) : Prop :=
  d ≠ "" ∧ ∀ c ∈ d.data, '0' ≤ c ∧ c ≤ '9'

/-- A non-empty run of characters other than `/`. -/
def IsSegment (x : String) : Prop :=
  x ≠ "" ∧ '/' ∉ x.data

/-- The string has the documented form of a provider resource name. -/
def IsProviderName (s : String) : Prop :=
  ∃ d pool prov : String,
    IsProjectNumber d ∧ IsSegment pool ∧ IsSegment prov ∧ s = providerName d pool prov

/-- A stand-in for `google.CredentialsFromJSON` that returns the descriptor it is
given, so that the result of `Config.Get` shows what `Get` built. -/
def recordDescriptor (conf : GoMap) (_scopes : List String) : Except String GoMap :=
  .ok conf

/-- Whatever `google.CredentialsFromJSON` does, `Config.Get` calls it on the
descriptor `m` with the access scopes, returns its credentials, and wraps its
error. -/
def Config.GetHandsOver (c : Config) (credFile : String)
    (googleServiceAccountEmail : Option String) (m : GoMap) : Prop :=
  ∀ (Credentials : Type) (credentialsFromJSON : GoMap → List String → Except String Credentials),
    Config.Get credentialsFromJSON c credFile googleServiceAccountEmail =
      match credentialsFromJSON m AccessScopes with
      | .error err => .error ("error creating google credentials from json: " ++ err)
      | .ok creds => .ok creds

/-- The error value `NewConfig` returns for a name that does not match. -/
def formatError : String :=
  "workload identity provider name does not match pattern "
    ++ "^projects/\\d+/locations/global/workloadIdentityPools/([^/]+)/providers/[^/]+$"

/-- Whether a validation error comes from the checks of NODE_NAME and POD_IP. -/
def ConfigError.isEnvironment : ConfigError → Bool
  | .nodeNameMissing => true
  | .podIPMissing => true
  | .podIPParse _ => true
  | .podIPNotIPv4 => true
  | .nodePoolServiceAccountFlags => false
  | .newConfig _ => false

/-- Whether an action is an `AddListener` call. -/
def Action.isAddListener : Action → Bool
  | .addListener _ _ => true
  | _ => false

/-- Whether an action is a `Start` call. -/
def Action.isStart : Action → Bool
  | .start _ => true
  | _ => false

/-- No `AddListener` call follows a `Start` call in the list, read from left to
right; `started` tells whether a `Start` call has been seen. -/
def listenersBeforeStartsFrom : Bool → List Action → Bool
  | _, [] => true
  | started, a :: rest =>
    !(started && a.isAddListener) && listenersBeforeStartsFrom (started || a.isStart) rest

/-- No `AddListener` call follows a `Start` call in the list. -/
def listenersBeforeStarts (l : List Action) : Bool :=
  listenersBeforeStartsFrom false l

/-- Exactly one of the two node-pool service account flags is empty. -/
def ExactlyOneEmpty (name ns : String) : Prop :=
  (name = "" ∧ ns ≠ "") ∨ (name ≠ "" ∧ ns = "")

/-- The checks of NODE_NAME and POD_IP pass, with parsed address `ip`. -/
def EnvironmentPasses (w : World) (ip : Addr) : Prop :=
  w.getenv "NODE_NAME" ≠ "" ∧ w.getenv "POD_IP" ≠ "" ∧
    w.parseAddr (w.getenv "POD_IP") = .ok ip ∧ ip.Is4 = true

/-- Validation fails: NODE_NAME or POD_IP is missing, POD_IP is malformed or
not IPv4, the node-pool service account flags are inconsistent, or `NewConfig`
rejects the provider name. -/
def ValidationFails (w : World) (f : Flags) : Prop :=
  w.getenv "NODE_NAME" = "" ∨ w.getenv "POD_IP" = "" ∨
  (∃ cause, w.parseAddr (w.getenv "POD_IP") = .error cause) ∨
  (∃ ip, w.parseAddr (w.getenv "POD_IP") = .ok ip ∧ ip.Is4 = false) ∨
  ExactlyOneEmpty f.nodePoolServiceAccountName f.nodePoolServiceAccountNamespace ∨
  (∃ r, NewConfig { WorkloadIdentityProvider := f.workloadIdentityProvider } = some r ∧
    r.err ≠ none)

/-- The results of `netip.ParseAddr` on two sample texts (an IPv4 address and
the IPv4-mapped IPv6 address of the same host); other texts are not needed. -/
def sampleParseAddr (s : String) : Except String Addr :=
  if s = "10.0.0.1" then .ok { hi := 0, lo := 0xffff0a000001, z := .z4 }
  else if s = "::ffff:10.0.0.1" then .ok { hi := 0, lo := 0xffff0a000001, z := .z6noz }
  else .error "unable to parse IP"

/-- A sample environment in which every call succeeds. -/
def sampleWorld : World where
  getenv := fun k =>
    if k = "NODE_NAME" then "node-1" else if k = "POD_IP" then "10.0.0.1" else ""
  parseAddr := sampleParseAddr
  debug := false
  loadAndAttachBPF := fun _ _ _ => none
  createKubernetesClient := .ok { id := 0 }
  metricsRegistry := { id := 0 }
  shutdown := none

/-- The sample environment with the IPv4-mapped IPv6 form of the pod address. -/
def sampleWorldMapped : World :=
  { sampleWorld with
    getenv := fun k =>
      if k = "NODE_NAME" then "node-1" else if k = "POD_IP" then "::ffff:10.0.0.1" else "" }

/-- Sample flags: a well-formed provider name, the node-pool service account
default in kube-system, every watch and the token cache enabled. -/
def sampleFlags : Flags :=
  { defaultFlags with
    workloadIdentityProvider :=
      "projects/123/locations/global/workloadIdentityPools/pool-x/providers/prov-y"
    nodePoolServiceAccountName := "default"
    nodePoolServiceAccountNamespace := "kube-system"
    watchPods := true
    watchNode := true
    watchServiceAccounts := true
    cacheTokens := true }

/-- The default flags with only the node-pool service account default in
kube-system set; the provider name keeps its default, the empty string. -/
def nodePoolOnlyFlags : Flags :=
  { defaultFlags with
    nodePoolServiceAccountName := "default"
    nodePoolServiceAccountNamespace := "kube-system" }

/-! ## Lemmas on the matcher -/

theorem Regexp.dropLiteral_eq_some (p cs r : List Char) :
    Regexp.dropLiteral p cs = some r ↔ cs = p ++ r := by
  induction p generalizing cs with
  | nil => simp [Regexp.dropLiteral, eq_comm]
  | cons x xs ih =>
    cases cs with
    | nil => simp [Regexp.dropLiteral]
    | cons c cs =>
      by_cases h : c = x
      · simp [Regexp.dropLiteral, h, ih]
      · simp [Regexp.dropLiteral, h]

theorem Regexp.plusGreedy_eq_some {α : Type} (cls : Regexp.CharClass)
    (k : Nat → List Char → Option α)
    (hk : ∀ p c cs, cls.contains c = true → k p (c :: cs) = none)
    (pos : Nat) (cs : List Char) (r : α) :
    Regexp.plusGreedy cls k pos cs = some r ↔
      ∃ a b, cs = a ++ b ∧ a ≠ [] ∧ (∀ c ∈ a, cls.contains c = true) ∧
        k (pos + a.length) b = some r := by
  induction cs generalizing pos with
  | nil =>
    simp only [Regexp.plusGreedy]
    refine ⟨fun h => (by cases h), ?_⟩
    rintro ⟨a, b, hab, ha, -, -⟩
    cases a with
    | nil => exact absurd rfl ha
    | cons x xs => simp at hab
  | cons c cs ih =>
    unfold Regexp.plusGreedy
    by_cases hc : cls.contains c = true
    · simp only [hc, if_true]
      constructor
      · intro h
        cases hin : Regexp.plusGreedy cls k (pos + 1) cs with
        | some r1 =>
          rw [hin] at h
          obtain ⟨a, b, hab, -, hall, hkr⟩ := (ih (pos + 1) ).1 (by rw [hin]; exact congrArg some (Option.some.inj h))
          refine ⟨c :: a, b, by simp [hab], by simp, ?_, ?_⟩
          · intro x hx
            rcases List.mem_cons.1 hx with rfl | hx
            · exact hc
            · exact hall x hx
          · simpa [Nat.add_assoc, Nat.add_comm 1] using hkr
        | none =>
          rw [hin] at h
          exact ⟨[c], cs, by simp, by simp, by simpa using hc, by simpa using h⟩
      · rintro ⟨a, b, hab, ha, hall, hkr⟩
        cases a with
        | nil => exact absurd rfl ha
        | cons x xs =>
          simp only [List.cons_append, List.cons.injEq] at hab
          obtain ⟨rfl, rfl⟩ := hab
          by_cases hxs : xs = []
          · subst hxs
            have hnone : Regexp.plusGreedy cls k (pos + 1) b = none := by
              cases b with
              | nil => simp [Regexp.plusGreedy]
              | cons y ys =>
                unfold Regexp.plusGreedy
                by_cases hy : cls.contains y = true
                · rw [hk _ y ys hy] at hkr
                  cases hkr
                · simp [hy]
            simp only [List.nil_append] at hnone ⊢
            rw [hnone]
            simpa using hkr
          · have := (ih (pos + 1)).2 ⟨xs, b, rfl, hxs,
              fun y hy => hall y (List.mem_cons_of_mem _ hy),
              by simpa [Nat.add_assoc, Nat.add_comm 1] using hkr⟩
            rw [this]
    · simp only [hc, Bool.false_eq_true, if_false]
      refine ⟨fun h => (by cases h), ?_⟩
      rintro ⟨a, b, hab, ha, hall, -⟩
      cases a with
      | nil => exact absurd rfl ha
      | cons x xs =>
        simp only [List.cons_append, List.cons.injEq] at hab
        obtain ⟨rfl, -⟩ := hab
        exact absurd (hall c (List.mem_cons_self _ _)) hc

theorem Regexp.matchHere_literal (s : String) (r : List Regexp.Node) (pos : Nat)
    (caps : Regexp.Caps) (cs : List Char) (m : Nat × Regexp.Caps) :
    Regexp.matchHere (.literal s :: r) pos caps cs = some m ↔
      ∃ rest, cs = s.data ++ rest ∧
        Regexp.matchHere r (pos + s.data.length) caps rest = some m := by
  rw [Regexp.matchHere]
  cases h : Regexp.dropLiteral s.data cs with
  | none =>
    refine ⟨fun hm => (by cases hm), ?_⟩
    rintro ⟨rest, hrest, -⟩
    rw [(Regexp.dropLiteral_eq_some _ _ _).2 hrest] at h
    cases h
  | some rest =>
    have hcs := (Regexp.dropLiteral_eq_some _ _ _).1 h
    constructor
    · intro hm
      exact ⟨rest, hcs, hm⟩
    · rintro ⟨rest1, h1, hm⟩
      have : rest1 = rest := List.append_cancel_left (h1.symm.trans hcs)
      simpa [this] using hm

theorem Regexp.matchHere_literal_head (s : String) (r : List Regexp.Node) (pos : Nat)
    (caps : Regexp.Caps) (x c : Char) (xs cs : List Char) (hs : s.data = x :: xs) (hc : c ≠ x) :
    Regexp.matchHere (.literal s :: r) pos caps (c :: cs) = none := by
  unfold Regexp.matchHere
  simp [hs, Regexp.dropLiteral, hc]

theorem Regexp.isDigit_ne_slash (c : Char) (h : c.isDigit = true) : c ≠ '/' := by
  rintro rfl
  exact absurd h (by decide)

theorem Regexp.matchHere_prog (cs : List Char) (m : Nat × Regexp.Caps) :
    Regexp.matchHere workloadIdentityProviderRegex.prog 0 {} cs = some m ↔
      ∃ d pool prov : List Char,
        d ≠ [] ∧ (∀ c ∈ d, c.isDigit = true) ∧ pool ≠ [] ∧ '/' ∉ pool ∧
        prov ≠ [] ∧ '/' ∉ prov ∧
        cs = "projects/".data ++ (d ++ ("/locations/global/workloadIdentityPools/".data ++
              (pool ++ ("/providers/".data ++ prov)))) ∧
        m = (cs.length,
              { start := some (9 + d.length + 40),
                stop := some (9 + d.length + 40 + pool.length) }) := by
  have hk3 : ∀ (caps : Regexp.Caps) (p : Nat) (c : Char) (cs : List Char),
      (Regexp.CharClass.negated ['/']).contains c = true →
      (fun p rest => Regexp.matchHere [.endText] p caps rest) p (c :: cs) = none := by
    intro caps p c cs _
    simp [Regexp.matchHere]
  have hk2 : ∀ (caps : Regexp.Caps) (r : List Regexp.Node) (p : Nat) (c : Char) (cs : List Char),
      (Regexp.CharClass.negated ['/']).contains c = true →
      (fun p rest => Regexp.matchHere (.capClose :: .literal "/providers/" :: r) p caps rest)
        p (c :: cs) = none := by
    intro caps r p c cs hc
    have hne : c ≠ '/' := by
      simpa [Regexp.CharClass.contains] using hc
    show Regexp.matchHere (.capClose :: .literal "/providers/" :: r) p caps (c :: cs) = none
    rw [Regexp.matchHere]
    exact Regexp.matchHere_literal_head _ _ _ _ '/' c "providers/".data cs rfl hne
  have hk1 : ∀ (caps : Regexp.Caps) (r : List Regexp.Node) (p : Nat) (c : Char) (cs : List Char),
      Regexp.CharClass.perlDigit.contains c = true →
      (fun p rest => Regexp.matchHere
        (.literal "/locations/global/workloadIdentityPools/" :: r) p caps rest) p (c :: cs)
        = none := by
    intro caps r p c cs hc
    exact Regexp.matchHere_literal_head _ _ _ _ '/' c
      "locations/global/workloadIdentityPools/".data cs rfl
      (Regexp.isDigit_ne_slash c hc)
  simp only [workloadIdentityProviderRegex]
  rw [Regexp.matchHere]
  simp only [if_true]
  rw [Regexp.matchHere_literal]
  constructor
  · rintro ⟨r1, h1, hm⟩
    rw [Regexp.matchHere] at hm
    obtain ⟨d, r2, h2, hd, hdall, hm⟩ := (Regexp.plusGreedy_eq_some _ _ (hk1 _ _) _ _ _).1 hm
    obtain ⟨r3, h3, hm⟩ := (Regexp.matchHere_literal _ _ _ _ _ _).1 hm
    rw [Regexp.matchHere, Regexp.matchHere] at hm
    obtain ⟨pool, r4, h4, hpool, hpoolall, hm⟩ :=
      (Regexp.plusGreedy_eq_some _ _ (hk2 _ _) _ _ _).1 hm
    rw [Regexp.matchHere] at hm
    obtain ⟨r5, h5, hm⟩ := (Regexp.matchHere_literal _ _ _ _ _ _).1 hm
    rw [Regexp.matchHere] at hm
    obtain ⟨prov, r6, h6, hprov, hprovall, hm⟩ :=
      (Regexp.plusGreedy_eq_some _ _ (hk3 _) _ _ _).1 hm
    rw [Regexp.matchHere] at hm
    cases r6 with
    | cons x xs => simp at hm
    | nil =>
      simp only [List.isEmpty_nil, if_true, Regexp.matchHere, Option.some.injEq] at hm
      subst hm
      refine ⟨d, pool, prov, hd, hdall, hpool, ?_, hprov, ?_, ?_, ?_⟩
      · intro hmem
        simpa [Regexp.CharClass.contains] using hpoolall _ hmem
      · intro hmem
        simpa [Regexp.CharClass.contains] using hprovall _ hmem
      · subst h6 h5 h4 h3 h2 h1
        simp
      · subst h6 h5 h4 h3 h2 h1
        simp
        omega
  · rintro ⟨d, pool, prov, hd, hdall, hpool, hpoolall, hprov, hprovall, hcs, hm⟩
    refine ⟨_, hcs, ?_⟩
    rw [Regexp.matchHere]
    refine (Regexp.plusGreedy_eq_some _ _ (hk1 _ _) _ _ _).2 ⟨d, _, rfl, hd, hdall, ?_⟩
    refine (Regexp.matchHere_literal _ _ _ _ _ _).2 ⟨_, rfl, ?_⟩
    rw [Regexp.matchHere, Regexp.matchHere]
    refine (Regexp.plusGreedy_eq_some _ _ (hk2 _ _) _ _ _).2 ⟨pool, _, rfl, hpool, ?_, ?_⟩
    · intro c hc
      have : c ≠ '/' := fun h => hpoolall (h ▸ hc)
      simpa [Regexp.CharClass.contains] using this
    rw [Regexp.matchHere]
    refine (Regexp.matchHere_literal _ _ _ _ _ _).2 ⟨_, rfl, ?_⟩
    rw [Regexp.matchHere]
    refine (Regexp.plusGreedy_eq_some _ _ (hk3 _) _ _ _).2 ⟨prov, [], by simp, hprov, ?_, ?_⟩
    · intro c hc
      have : c ≠ '/' := fun h => hprovall (h ▸ hc)
      simpa [Regexp.CharClass.contains] using this
    rw [Regexp.matchHere]
    simp only [List.isEmpty_nil, if_true, Regexp.matchHere, Option.some.injEq]
    rw [hm, hcs]
    simp
    omega

theorem Regexp.searchFrom_beginText (r : List Regexp.Node) (pos : Nat) (cs : List Char) :
    Regexp.searchFrom (.beginText :: r) (pos + 1) cs = none := by
  induction cs generalizing pos with
  | nil => simp [Regexp.searchFrom, Regexp.matchHere]
  | cons c cs ih => simp [Regexp.searchFrom, Regexp.matchHere, ih]

theorem Regexp.find_workloadIdentityProviderRegex (s : String) :
    workloadIdentityProviderRegex.find s =
      (Regexp.matchHere workloadIdentityProviderRegex.prog 0 {} s.data).map
        (fun m => { start := 0, stop := m.1, caps := m.2 }) := by
  unfold Regexp.find
  have hprog : workloadIdentityProviderRegex.prog = .beginText ::
      workloadIdentityProviderRegex.prog.tail := rfl
  cases hcs : s.data with
  | nil =>
    rw [Regexp.searchFrom]
    cases Regexp.matchHere workloadIdentityProviderRegex.prog 0 {} [] <;> rfl
  | cons c cs =>
    rw [Regexp.searchFrom]
    cases hm : Regexp.matchHere workloadIdentityProviderRegex.prog 0 {} (c :: cs) with
    | some m => rfl
    | none =>
      simp only [Option.map_none']
      rw [hprog]
      exact Regexp.searchFrom_beginText _ 0 cs

theorem isDigit_iff (c : Char) : c.isDigit = true ↔ '0' ≤ c ∧ c ≤ '9' := by
  simp [Char.isDigit, Char.le_def]

theorem string_ne_empty_iff (x : String) : x ≠ "" ↔ x.data ≠ [] := by
  constructor
  · intro h hd
    exact h (String.ext hd)
  · intro h hx
    exact h (by rw [hx])

theorem providerName_data (d pool prov : String) :
    (providerName d pool prov).data =
      "projects/".data ++ (d.data ++ ("/locations/global/workloadIdentityPools/".data ++
        (pool.data ++ ("/providers/".data ++ prov.data)))) := by
  simp [providerName, String.data_append]

/-- On a name of the documented form, `NewConfig` returns the configuration of
that name, the pool segment and no error. -/
theorem NewConfig_of_shape (s : String) (d pool prov : List Char)
    (hd : d ≠ []) (hdall : ∀ c ∈ d, c.isDigit = true) (hpool : pool ≠ []) (hpoolall : '/' ∉ pool)
    (hprov : prov ≠ []) (hprovall : '/' ∉ prov)
    (hs : s.data = "projects/".data ++ (d ++ ("/locations/global/workloadIdentityPools/".data ++
              (pool ++ ("/providers/".data ++ prov))))) :
    NewConfig { WorkloadIdentityProvider := s } =
      some { config := some { opts := { WorkloadIdentityProvider := s } },
             workloadIdentityPool := ⟨pool⟩,
             err := none } := by
  have hm := (Regexp.matchHere_prog s.data _).2
    ⟨d, pool, prov, hd, hdall, hpool, hpoolall, hprov, hprovall, hs, rfl⟩
  have hfind := Regexp.find_workloadIdentityProviderRegex s
  rw [hm] at hfind
  simp only [Option.map_some'] at hfind
  unfold NewConfig Regexp.MatchString Regexp.FindStringSubmatch
  simp only [hfind, Option.isSome_some, Bool.not_true, Bool.false_eq_true, if_false]
  have hslice : slice s (9 + d.length + 40) (9 + d.length + 40 + pool.length) = ⟨pool⟩ := by
    unfold slice
    congr 1
    rw [hs]
    have h9 : "projects/".data.length = 9 := rfl
    have h40 : "/locations/global/workloadIdentityPools/".data.length = 40 := rfl
    rw [show 9 + d.length + 40 =
      ("projects/".data ++ (d ++ "/locations/global/workloadIdentityPools/".data)).length by
        simp [h9, h40]; omega]
    rw [show "projects/".data ++ (d ++ ("/locations/global/workloadIdentityPools/".data ++
              (pool ++ ("/providers/".data ++ prov)))) =
          ("projects/".data ++ (d ++ "/locations/global/workloadIdentityPools/".data)) ++
              (pool ++ ("/providers/".data ++ prov)) by simp]
    rw [List.drop_left, Nat.add_sub_cancel_left, List.take_left]
  simp [hslice]

/-- On any other name, `NewConfig` returns a nil configuration, an empty pool
and the format error. -/
theorem NewConfig_of_not_shape (s : String)
    (h : ¬ ∃ d pool prov : List Char,
        d ≠ [] ∧ (∀ c ∈ d, c.isDigit = true) ∧ pool ≠ [] ∧ '/' ∉ pool ∧
        prov ≠ [] ∧ '/' ∉ prov ∧
        s.data = "projects/".data ++ (d ++ ("/locations/global/workloadIdentityPools/".data ++
              (pool ++ ("/providers/".data ++ prov))))) :
    NewConfig { WorkloadIdentityProvider := s } =
      some { config := none, workloadIdentityPool := "", err := some formatError } := by
  have hm : Regexp.matchHere workloadIdentityProviderRegex.prog 0 {} s.data = none := by
    cases hcase : Regexp.matchHere workloadIdentityProviderRegex.prog 0 {} s.data with
    | none => rfl
    | some m =>
      obtain ⟨d, pool, prov, h1, h2, h3, h4, h5, h6, h7, -⟩ :=
        (Regexp.matchHere_prog s.data m).1 hcase
      exact absurd ⟨d, pool, prov, h1, h2, h3, h4, h5, h6, h7⟩ h
  have hfind := Regexp.find_workloadIdentityProviderRegex s
  rw [hm] at hfind
  simp only [Option.map_none'] at hfind
  unfold NewConfig Regexp.MatchString
  simp only [hfind, Option.isSome_none, Bool.not_false, if_true]
  rfl

theorem isProviderName_iff (s : String) :
    IsProviderName s ↔ ∃ d pool prov : List Char,
        d ≠ [] ∧ (∀ c ∈ d, c.isDigit = true) ∧ pool ≠ [] ∧ '/' ∉ pool ∧
        prov ≠ [] ∧ '/' ∉ prov ∧
        s.data = "projects/".data ++ (d ++ ("/locations/global/workloadIdentityPools/".data ++
              (pool ++ ("/providers/".data ++ prov)))) := by
  constructor
  · rintro ⟨d, pool, prov, ⟨hd, hdall⟩, ⟨hpool, hpoolall⟩, ⟨hprov, hprovall⟩, rfl⟩
    exact ⟨d.data, pool.data, prov.data, (string_ne_empty_iff d).1 hd,
      fun c hc => (isDigit_iff c).2 (hdall c hc), (string_ne_empty_iff pool).1 hpool, hpoolall,
      (string_ne_empty_iff prov).1 hprov, hprovall, providerName_data d pool prov⟩
  · rintro ⟨d, pool, prov, hd, hdall, hpool, hpoolall, hprov, hprovall, hs⟩
    refine ⟨⟨d⟩, ⟨pool⟩, ⟨prov⟩, ⟨(string_ne_empty_iff _).2 hd,
      fun c hc => (isDigit_iff c).1 (hdall c hc)⟩, ⟨(string_ne_empty_iff _).2 hpool, hpoolall⟩,
      ⟨(string_ne_empty_iff _).2 hprov, hprovall⟩, ?_⟩
    apply String.ext
    rw [hs, providerName_data]

theorem split_at_slash_unique (a a1 b b1 : List Char) (ha : '/' ∉ a) (ha1 : '/' ∉ a1)
    (h : a ++ '/' :: b = a1 ++ '/' :: b1) : a = a1 ∧ b = b1 := by
  induction a generalizing a1 with
  | nil =>
    cases a1 with
    | nil => simpa using h
    | cons y ys =>
      simp only [List.nil_append, List.cons_append, List.cons.injEq] at h
      exact absurd (h.1 ▸ List.mem_cons_self _ _) ha1
  | cons x xs ih =>
    cases a1 with
    | nil =>
      simp only [List.nil_append, List.cons_append, List.cons.injEq] at h
      exact absurd (h.1 ▸ List.mem_cons_self _ _) ha
    | cons y ys =>
      simp only [List.cons_append, List.cons.injEq] at h
      obtain ⟨rfl, h⟩ := h
      obtain ⟨rfl, rfl⟩ := ih ys (fun hm => ha (List.mem_cons_of_mem _ hm))
        (fun hm => ha1 (List.mem_cons_of_mem _ hm)) h
      exact ⟨rfl, rfl⟩

/-- In a name accepted by the pattern, the pool segment is determined by the
documented form, whatever the three parts are. -/
theorem pool_of_shape_unique (d pool prov d1 pool1 prov1 : List Char)
    (hd1 : ∀ c ∈ d1, c.isDigit = true) (hpool1 : '/' ∉ pool1) (hprov1 : '/' ∉ prov1)
    (h : "projects/".data ++ (d ++ ("/locations/global/workloadIdentityPools/".data ++
              (pool ++ ("/providers/".data ++ prov)))) =
         "projects/".data ++ (d1 ++ ("/locations/global/workloadIdentityPools/".data ++
              (pool1 ++ ("/providers/".data ++ prov1))))) :
    pool = pool1 := by
  have hd1s : '/' ∉ d1 := fun hm => Regexp.isDigit_ne_slash _ (hd1 _ hm) rfl
  have hcount := congrArg (List.count '/') h
  simp only [List.count_append] at hcount
  have c1 : List.count '/' d1 = 0 := List.count_eq_zero.2 hd1s
  have c2 : List.count '/' pool1 = 0 := List.count_eq_zero.2 hpool1
  have c3 : List.count '/' prov1 = 0 := List.count_eq_zero.2 hprov1
  rw [c1, c2, c3] at hcount
  have hds : '/' ∉ d := List.count_eq_zero.1 (by omega)
  have hpools : '/' ∉ pool := List.count_eq_zero.1 (by omega)
  have h1 := List.append_cancel_left h
  have h2 := (split_at_slash_unique d d1 _ _ hds hd1s h1).2
  have h3 := List.append_cancel_left
    (show "locations/global/workloadIdentityPools/".data ++ (pool ++ ("/providers/".data ++ prov))
        = "locations/global/workloadIdentityPools/".data ++
            (pool1 ++ ("/providers/".data ++ prov1)) from h2)
  exact (split_at_slash_unique pool pool1 _ _ hpools hpool1 h3).1

/-- C1: `NewConfig` returns, and returns a nil error exactly for the names of
the form projects/DIGITS/locations/global/workloadIdentityPools/SEGMENT/providers/SEGMENT
(one or more ASCII digits, non-empty segments without a slash); for every other
name it returns a nil config, an empty pool string and the format error. -/
theorem NewConfig_nil_error_iff_provider_name (s : String) :
    (∃ r, NewConfig { WorkloadIdentityProvider := s } = some r) ∧
    ((∃ r, NewConfig { WorkloadIdentityProvider := s } = some r ∧ r.err = none) ↔
      IsProviderName s) ∧
    (¬ IsProviderName s →
      NewConfig { WorkloadIdentityProvider := s } =
        some { config := none, workloadIdentityPool := "", err := some formatError }) := by
  have hrej : ¬ IsProviderName s →
      NewConfig { WorkloadIdentityProvider := s } =
        some { config := none, workloadIdentityPool := "", err := some formatError } :=
    fun h => NewConfig_of_not_shape s (fun hex => h ((isProviderName_iff s).2 hex))
  have hacc : IsProviderName s →
      ∃ r, NewConfig { WorkloadIdentityProvider := s } = some r ∧ r.err = none := by
    intro h
    obtain ⟨d, pool, prov, h1, h2, h3, h4, h5, h6, h7⟩ := (isProviderName_iff s).1 h
    exact ⟨_, NewConfig_of_shape s d pool prov h1 h2 h3 h4 h5 h6 h7, rfl⟩
  refine ⟨?_, ⟨?_, hacc⟩, hrej⟩
  · by_cases h : IsProviderName s
    · obtain ⟨r, hr, -⟩ := hacc h
      exact ⟨r, hr⟩
    · exact ⟨_, hrej h⟩
  · rintro ⟨r, hr, herr⟩
    by_contra h
    rw [hrej h] at hr
    cases hr
    cases herr

/-- C1, at the two names of the specification: the name with project number 123,
pool pool-x and provider prov-y is accepted, a name with project number abc is
rejected with the format error. -/
theorem NewConfig_nil_error_iff_provider_name_witness :
    (∃ r, NewConfig { WorkloadIdentityProvider :=
        "projects/123/locations/global/workloadIdentityPools/pool-x/providers/prov-y" } = some r
        ∧ r.err = none) ∧
    NewConfig { WorkloadIdentityProvider :=
        "projects/abc/locations/global/workloadIdentityPools/pool-x/providers/p" } =
      some { config := none, workloadIdentityPool := "", err := some formatError } := by
  constructor
  · refine (NewConfig_nil_error_iff_provider_name _).2.1.2
      ⟨"123", "pool-x", "prov-y", ⟨by decide, by decide⟩, ⟨by decide, by decide⟩,
        ⟨by decide, by decide⟩, by decide⟩
  · refine (NewConfig_nil_error_iff_provider_name _).2.2 ?_
    intro h
    obtain ⟨r, hr, herr⟩ := (NewConfig_nil_error_iff_provider_name _).2.1.2 h
    have hdec : NewConfig { WorkloadIdentityProvider :=
        "projects/abc/locations/global/workloadIdentityPools/pool-x/providers/p" } =
      some { config := none, workloadIdentityPool := "", err := some formatError } := by decide
    rw [hdec] at hr
    cases hr
    cases herr

/-- C2: when `NewConfig` accepts the name built from a project number, a pool
and a provider in the documented form, the pool string it returns is exactly
that pool, which is non-empty and has no slash. -/
theorem NewConfig_returns_pool_segment (d pool prov : String) (r : NewConfigResult)
    (h : NewConfig { WorkloadIdentityProvider := providerName d pool prov } = some r)
    (hacc : r.err = none) :
    r.workloadIdentityPool = pool ∧ IsSegment pool := by
  by_cases hshape : IsProviderName (providerName d pool prov)
  · obtain ⟨d1, pool1, prov1, h1, h2, h3, h4, h5, h6, h7⟩ := (isProviderName_iff _).1 hshape
    rw [NewConfig_of_shape _ d1 pool1 prov1 h1 h2 h3 h4 h5 h6 h7] at h
    rw [providerName_data] at h7
    have hp : pool.data = pool1 := pool_of_shape_unique _ _ _ _ _ _ h2 h4 h6 h7
    have hpool : pool = ⟨pool1⟩ := String.ext hp
    cases h
    refine ⟨hpool.symm, (string_ne_empty_iff _).2 (hp ▸ h3), hp ▸ h4⟩
  · rw [NewConfig_of_not_shape _ (fun hex => hshape ((isProviderName_iff _).2 hex))] at h
    cases h
    cases hacc

/-- C2, at the name of the specification: the pool of
projects/123/locations/global/workloadIdentityPools/pool-x/providers/prov-y is pool-x. -/
theorem NewConfig_returns_pool_segment_witness :
    NewConfig { WorkloadIdentityProvider :=
        "projects/123/locations/global/workloadIdentityPools/pool-x/providers/prov-y" } =
      some { config := some { opts := { WorkloadIdentityProvider :=
              "projects/123/locations/global/workloadIdentityPools/pool-x/providers/prov-y" } },
             workloadIdentityPool := "pool-x", err := none } ∧
    ("pool-x" = "pool-x" ∧ IsSegment "pool-x") :=
  ⟨by decide,
   NewConfig_returns_pool_segment "123" "pool-x" "prov-y"
     { config := some { opts := { WorkloadIdentityProvider :=
              "projects/123/locations/global/workloadIdentityPools/pool-x/providers/prov-y" } },
       workloadIdentityPool := "pool-x", err := none } (by decide) rfl⟩

/-- C3: for a name accepted by `NewConfig`, the returned configuration has the
audience `//iam.googleapis.com/` followed by the unchanged name, and the
descriptor that `Get` builds and hands to the credentials constructor, for any
file path and optional email, has that string as its `audience` entry. -/
theorem NewConfig_audience (s : String) (r : NewConfigResult)
    (h : NewConfig { WorkloadIdentityProvider := s } = some r) (hacc : r.err = none) :
    ∃ c, r.config = some c ∧
      c.WorkloadIdentityProviderAudience = "//iam.googleapis.com/" ++ s ∧
      ∀ (credFile : String) (email : Option String),
        ∃ m : GoMap,
          Config.Get recordDescriptor c credFile email = .ok m ∧
          c.GetHandsOver credFile email m ∧
          m.get? "audience" = some (.str ("//iam.googleapis.com/" ++ s)) := by
  by_cases hshape : IsProviderName s
  · obtain ⟨d1, pool1, prov1, h1, h2, h3, h4, h5, h6, h7⟩ := (isProviderName_iff _).1 hshape
    rw [NewConfig_of_shape _ d1 pool1 prov1 h1 h2 h3 h4 h5 h6 h7] at h
    cases h
    refine ⟨_, rfl, rfl, ?_⟩
    intro credFile email
    refine ⟨_, rfl, fun _ _ => rfl, ?_⟩
    cases email <;> rfl
  · rw [NewConfig_of_not_shape _ (fun hex => hshape ((isProviderName_iff _).2 hex))] at h
    cases h
    cases hacc

/-- C3, at the name projects/123/locations/global/workloadIdentityPools/pool-x/providers/prov-y. -/
theorem NewConfig_audience_witness :
    ∃ c, (some { opts := { WorkloadIdentityProvider :=
              "projects/123/locations/global/workloadIdentityPools/pool-x/providers/prov-y" } }
            : Option Config) = some c ∧
      c.WorkloadIdentityProviderAudience = "//iam.googleapis.com/" ++
        "projects/123/locations/global/workloadIdentityPools/pool-x/providers/prov-y" ∧
      ∀ (credFile : String) (email : Option String),
        ∃ m : GoMap,
          Config.Get recordDescriptor c credFile email = .ok m ∧
          c.GetHandsOver credFile email m ∧
          m.get? "audience" = some (.str ("//iam.googleapis.com/" ++
            "projects/123/locations/global/workloadIdentityPools/pool-x/providers/prov-y")) :=
  NewConfig_audience
    "projects/123/locations/global/workloadIdentityPools/pool-x/providers/prov-y"
    { config := some { opts := { WorkloadIdentityProvider :=
              "projects/123/locations/global/workloadIdentityPools/pool-x/providers/prov-y" } },
      workloadIdentityPool := "pool-x", err := none } (by decide) rfl

/-- C4: the descriptor that `Get` builds and hands to the credentials
constructor has exactly one of the two endpoint keys: with an email, the
impersonation URL of that email and no `token_info_url`; without one, the
introspection URL and no `service_account_impersonation_url`. -/
theorem Get_endpoint_key (c : Config) (credFile : String) :
    (∀ e : String, ∃ m : GoMap,
      Config.Get recordDescriptor c credFile (some e) = .ok m ∧
      c.GetHandsOver credFile (some e) m ∧
      m.get? "service_account_impersonation_url" =
        some (.str ("https://iamcredentials.googleapis.com/v1/projects/-/serviceAccounts/"
                      ++ e ++ ":generateAccessToken")) ∧
      m.get? "token_info_url" = none ∧
      m.keys =
        ["universe_domain", "type", "audience", "subject_token_type", "token_url",
         "credential_source", "service_account_impersonation_url"]) ∧
    (∃ m : GoMap,
      Config.Get recordDescriptor c credFile none = .ok m ∧
      c.GetHandsOver credFile none m ∧
      m.get? "token_info_url" = some (.str "https://sts.googleapis.com/v1/introspect") ∧
      m.get? "service_account_impersonation_url" = none ∧
      m.keys =
        ["universe_domain", "type", "audience", "subject_token_type", "token_url",
         "credential_source", "token_info_url"]) :=
  ⟨fun _ => ⟨_, rfl, fun _ _ => rfl, rfl, rfl, rfl⟩,
   ⟨_, rfl, fun _ _ => rfl, rfl, rfl, rfl⟩⟩

/-- C4, at the file /var/run/token: with the email sa@p.iam.gserviceaccount.com
`Get` returns (through the recording constructor) a descriptor with the
impersonation URL of that email and no `token_info_url`; without an email, one
with the introspection URL and no impersonation URL. -/
theorem Get_endpoint_key_witness :
    (∃ m : GoMap,
      Config.Get recordDescriptor { opts := { WorkloadIdentityProvider :=
          "projects/123/locations/global/workloadIdentityPools/pool-x/providers/prov-y" } }
        "/var/run/token" (some "sa@p.iam.gserviceaccount.com") = .ok m ∧
      m.get? "service_account_impersonation_url" =
        some (.str ("https://iamcredentials.googleapis.com/v1/projects/-/serviceAccounts/"
                      ++ "sa@p.iam.gserviceaccount.com" ++ ":generateAccessToken")) ∧
      m.get? "token_info_url" = none) ∧
    (∃ m : GoMap,
      Config.Get recordDescriptor { opts := { WorkloadIdentityProvider :=
          "projects/123/locations/global/workloadIdentityPools/pool-x/providers/prov-y" } }
        "/var/run/token" none = .ok m ∧
      m.get? "token_info_url" = some (.str "https://sts.googleapis.com/v1/introspect") ∧
      m.get? "service_account_impersonation_url" = none) := by
  obtain ⟨h1, m2, g2, -, a2, b2, -⟩ := Get_endpoint_key
    { opts := { WorkloadIdentityProvider :=
        "projects/123/locations/global/workloadIdentityPools/pool-x/providers/prov-y" } }
    "/var/run/token"
  obtain ⟨m1, g1, -, a1, b1, -⟩ := h1 "sa@p.iam.gserviceaccount.com"
  exact ⟨⟨m1, g1, a1, b1⟩, ⟨m2, g2, a2, b2⟩⟩

/-- C5: whatever the file path and whether or not an email is given, the
descriptor that `Get` builds and hands to the credentials constructor has type
external_account, universe domain googleapis.com, the JWT subject token type,
the STS token URL, and a credential source made of the file path and the text
format. -/
theorem Get_fixed_fields (c : Config) (credFile : String) (email : Option String) :
    ∃ m : GoMap,
      Config.Get recordDescriptor c credFile email = .ok m ∧
      c.GetHandsOver credFile email m ∧
      m.get? "type" = some (.str "external_account") ∧
      m.get? "universe_domain" = some (.str "googleapis.com") ∧
      m.get? "subject_token_type" = some (.str "urn:ietf:params:oauth:token-type:jwt") ∧
      m.get? "token_url" = some (.str "https://sts.googleapis.com/v1/token") ∧
      m.get? "credential_source" =
        some (.map [("file", .str credFile), ("format", .map [("type", .str "text")])]) := by
  refine ⟨_, rfl, fun _ _ => rfl, ?_⟩
  cases email <;> exact ⟨rfl, rfl, rfl, rfl, rfl⟩

/-- C5, at the file /var/run/token without an email: the descriptor `Get`
returns through the recording constructor has the five fixed entries. -/
theorem Get_fixed_fields_witness :
    ∃ m : GoMap,
      Config.Get recordDescriptor { opts := { WorkloadIdentityProvider :=
          "projects/123/locations/global/workloadIdentityPools/pool-x/providers/prov-y" } }
        "/var/run/token" none = .ok m ∧
      m.get? "type" = some (.str "external_account") ∧
      m.get? "universe_domain" = some (.str "googleapis.com") ∧
      m.get? "subject_token_type" = some (.str "urn:ietf:params:oauth:token-type:jwt") ∧
      m.get? "token_url" = some (.str "https://sts.googleapis.com/v1/token") ∧
      m.get? "credential_source" =
        some (.map [("file", .str "/var/run/token"), ("format", .map [("type", .str "text")])]) := by
  obtain ⟨m, g, -, h⟩ := Get_fixed_fields
    { opts := { WorkloadIdentityProvider :=
        "projects/123/locations/global/workloadIdentityPools/pool-x/providers/prov-y" } }
    "/var/run/token" none
  exact ⟨m, g, h⟩

/-! ## Lemmas on `RunE` -/

theorem bne_empty_of_ne (x : String) (h : ¬ x = "") : (x != "") = true := by
  simpa using h

theorem RunE_nodeName_empty (w : World) (f : Flags) (h : w.getenv "NODE_NAME" = "") :
    RunE w f = { exit := .returned (some .nodeNameMissing), trace := [] } := by
  simp [RunE, h]

theorem RunE_podIP_empty (w : World) (f : Flags) (hnode : w.getenv "NODE_NAME" ≠ "")
    (h : w.getenv "POD_IP" = "") :
    RunE w f = { exit := .returned (some .podIPMissing), trace := [] } := by
  simp [RunE, hnode, h]

theorem RunE_parse_error (w : World) (f : Flags) (cause : String)
    (hnode : w.getenv "NODE_NAME" ≠ "") (hpod : w.getenv "POD_IP" ≠ "")
    (h : w.parseAddr (w.getenv "POD_IP") = .error cause) :
    RunE w f = { exit := .returned (some (.podIPParse cause)), trace := [] } := by
  simp [RunE, hnode, hpod, h]

theorem RunE_not_ipv4 (w : World) (f : Flags) (ip : Addr)
    (hnode : w.getenv "NODE_NAME" ≠ "") (hpod : w.getenv "POD_IP" ≠ "")
    (hparse : w.parseAddr (w.getenv "POD_IP") = .ok ip) (h : ip.Is4 = false) :
    RunE w f = { exit := .returned (some .podIPNotIPv4), trace := [] } := by
  simp [RunE, hnode, hpod, hparse, h]

theorem RunE_flags_inconsistent (w : World) (f : Flags) (ip : Addr) (henv : EnvironmentPasses w ip)
    (h : ExactlyOneEmpty f.nodePoolServiceAccountName f.nodePoolServiceAccountNamespace) :
    RunE w f = { exit := .returned (some .nodePoolServiceAccountFlags), trace := [] } := by
  obtain ⟨hnode, hpod, hparse, hip⟩ := henv
  rcases h with ⟨h1, h2⟩ | ⟨h1, h2⟩ <;> simp [RunE, hnode, hpod, hparse, hip, h1, h2]

theorem RunE_provider_rejected (w : World) (f : Flags) (ip : Addr) (henv : EnvironmentPasses w ip)
    (hflags : ¬ ExactlyOneEmpty f.nodePoolServiceAccountName f.nodePoolServiceAccountNamespace)
    (h : ¬ IsProviderName f.workloadIdentityProvider) :
    RunE w f = { exit := .returned (some (.newConfig formatError)), trace := [] } := by
  obtain ⟨hnode, hpod, hparse, hip⟩ := henv
  have hnew := NewConfig_of_not_shape f.workloadIdentityProvider
    (fun hex => h ((isProviderName_iff _).2 hex))
  unfold ExactlyOneEmpty at hflags
  by_cases h1 : f.nodePoolServiceAccountName = "" <;>
    by_cases h2 : f.nodePoolServiceAccountNamespace = "" <;>
    simp [h1, h2] at hflags
  · simp [RunE, hnode, hpod, hparse, hip, h1, h2, hnew]
  · simp [RunE, hnode, hpod, hparse, hip, bne_empty_of_ne _ h1, bne_empty_of_ne _ h2, hnew]

theorem RunE_valid (w : World) (f : Flags) (ip : Addr) (henv : EnvironmentPasses w ip)
    (hflags : ¬ ExactlyOneEmpty f.nodePoolServiceAccountName f.nodePoolServiceAccountNamespace)
    (h : IsProviderName f.workloadIdentityProvider) :
    ∃ pool, NewConfig { WorkloadIdentityProvider := f.workloadIdentityProvider } =
        some { config := some { opts := { WorkloadIdentityProvider := f.workloadIdentityProvider } },
               workloadIdentityPool := pool, err := none } ∧
      RunE w f = RunE.runtime w f (w.getenv "NODE_NAME") ip
        (nodePoolServiceAccountOf f.nodePoolServiceAccountName f.nodePoolServiceAccountNamespace)
        (some { opts := { WorkloadIdentityProvider := f.workloadIdentityProvider } }) pool := by
  obtain ⟨hnode, hpod, hparse, hip⟩ := henv
  obtain ⟨d, pool, prov, c1, c2, c3, c4, c5, c6, c7⟩ := (isProviderName_iff _).1 h
  have hnew := NewConfig_of_shape f.workloadIdentityProvider d pool prov c1 c2 c3 c4 c5 c6 c7
  refine ⟨⟨pool⟩, hnew, ?_⟩
  unfold ExactlyOneEmpty at hflags
  by_cases h1 : f.nodePoolServiceAccountName = "" <;>
    by_cases h2 : f.nodePoolServiceAccountNamespace = "" <;>
    simp [h1, h2] at hflags
  · simp [RunE, hnode, hpod, hparse, hip, h1, h2, hnew]
  · simp [RunE, hnode, hpod, hparse, hip, bne_empty_of_ne _ h1, bne_empty_of_ne _ h2, hnew]

/-- Every run either fails validation, with an empty trace, or is the run of the
part after validation on the validated values. -/
theorem RunE_cases (w : World) (f : Flags) :
    (∃ e, RunE w f = { exit := .returned (some e), trace := [] }) ∨
    (∃ ip pool, EnvironmentPasses w ip ∧
      ¬ ExactlyOneEmpty f.nodePoolServiceAccountName f.nodePoolServiceAccountNamespace ∧
      IsProviderName f.workloadIdentityProvider ∧
      RunE w f = RunE.runtime w f (w.getenv "NODE_NAME") ip
        (nodePoolServiceAccountOf f.nodePoolServiceAccountName f.nodePoolServiceAccountNamespace)
        (some { opts := { WorkloadIdentityProvider := f.workloadIdentityProvider } }) pool) := by
  by_cases hnode : w.getenv "NODE_NAME" = ""
  · exact Or.inl ⟨_, RunE_nodeName_empty w f hnode⟩
  by_cases hpod : w.getenv "POD_IP" = ""
  · exact Or.inl ⟨_, RunE_podIP_empty w f hnode hpod⟩
  cases hparse : w.parseAddr (w.getenv "POD_IP") with
  | error cause => exact Or.inl ⟨_, RunE_parse_error w f cause hnode hpod hparse⟩
  | ok ip =>
    cases hip : ip.Is4 with
    | false => exact Or.inl ⟨_, RunE_not_ipv4 w f ip hnode hpod hparse hip⟩
    | true =>
      have henv : EnvironmentPasses w ip := ⟨hnode, hpod, hparse, hip⟩
      by_cases hflags :
          ExactlyOneEmpty f.nodePoolServiceAccountName f.nodePoolServiceAccountNamespace
      · exact Or.inl ⟨_, RunE_flags_inconsistent w f ip henv hflags⟩
      by_cases hprov : IsProviderName f.workloadIdentityProvider
      · obtain ⟨pool, -, hrun⟩ := RunE_valid w f ip henv hflags hprov
        exact Or.inr ⟨ip, pool, henv, hflags, hprov, hrun⟩
      · exact Or.inl ⟨_, RunE_provider_rejected w f ip henv hflags hprov⟩

theorem listenersBeforeStartsFrom_true (l : List Action)
    (h : listenersBeforeStartsFrom true l = true) (a : Action) (ha : a ∈ l) :
    a.isAddListener = false := by
  induction l with
  | nil => simp at ha
  | cons x xs ih =>
    simp only [listenersBeforeStartsFrom, Bool.true_and, Bool.true_or, Bool.and_eq_true,
      Bool.not_eq_true'] at h
    rcases List.mem_cons.1 ha with rfl | hmem
    · exact h.1
    · exact ih h.2 hmem

theorem listenersBeforeStarts_index (l : List Action) (h : listenersBeforeStarts l = true)
    (i j : Nat) (a b : Action) (hi : l[i]? = some a) (ha : a.isAddListener = true)
    (hj : l[j]? = some b) (hb : b.isStart = true) : i < j := by
  unfold listenersBeforeStarts at h
  induction l generalizing i j with
  | nil => simp at hi
  | cons x xs ih =>
    simp only [listenersBeforeStartsFrom, Bool.false_and, Bool.not_false, Bool.true_and,
      Bool.false_or] at h
    cases j with
    | zero =>
      simp only [List.getElem?_cons_zero, Option.some.injEq] at hj
      subst hj
      rw [hb] at h
      cases i with
      | zero =>
        simp only [List.getElem?_cons_zero, Option.some.injEq] at hi
        subst hi
        cases x <;> simp [Action.isStart, Action.isAddListener] at ha hb
      | succ i =>
        simp only [List.getElem?_cons_succ] at hi
        have := listenersBeforeStartsFrom_true xs h a (List.getElem?_mem hi)
        rw [ha] at this
        cases this
    | succ j =>
      simp only [List.getElem?_cons_succ] at hj
      cases i with
      | zero => exact Nat.succ_pos _
      | succ i =>
        simp only [List.getElem?_cons_succ] at hi
        cases hx : x.isStart with
        | true =>
          rw [hx] at h
          have := listenersBeforeStartsFrom_true xs h a (List.getElem?_mem hi)
          rw [ha] at this
          cases this
        | false =>
          rw [hx] at h
          exact Nat.succ_lt_succ (ih h i j hi hj)

set_option maxHeartbeats 4000000 in
theorem serve_listeners_before_start (w : World) (f : Flags) (nodeName : String) (ip : Addr)
    (np : Option Reference) (cfg : Option Config) (pool : String) (kubeClient : KubeClient) :
    listenersBeforeStarts (RunE.serve w f nodeName ip np cfg pool kubeClient).trace = true := by
  unfold RunE.serve
  lift_lets
  intro metricsRegistry podsOpts directPods wpOpts wp pods nodeOpts directNode wnOpts wn node
    saOpts directServiceAccounts wsaOpts wsa serviceAccounts tokenOpts createTokens cacheOpts p
    serviceAccountTokens serverOpts calls deferred
  clear_value serverOpts serviceAccountTokens p cacheOpts createTokens tokenOpts
          serviceAccounts wsa wsaOpts directServiceAccounts saOpts node wn wnOpts directNode
          nodeOpts pods wp wpOpts directPods podsOpts metricsRegistry
  cases wp <;> cases wn <;> cases wsa <;> cases p <;>
    simp [calls, deferred, listenersBeforeStarts, listenersBeforeStartsFrom, Action.isStart,
      Action.isAddListener]

theorem serve_addListener (w : World) (f : Flags) (nodeName : String) (ip : Addr)
    (np : Option Reference) (cfg : Option Config) (pool : String) (kubeClient : KubeClient)
    (t : Watched) (l : CacheTokensProvider)
    (h : Action.addListener t l ∈ (RunE.serve w f nodeName ip np cfg pool kubeClient).trace) :
    f.cacheTokens = true ∧
    Action.newCacheTokensProvider l.opts ∈
      (RunE.serve w f nodeName ip np cfg pool kubeClient).trace ∧
    ((∃ x, t = .pods x ∧ Action.newWatchPodsProvider x.opts ∈
        (RunE.serve w f nodeName ip np cfg pool kubeClient).trace) ∨
     (∃ x, t = .serviceAccounts x ∧ Action.newWatchServiceAccountsProvider x.opts ∈
        (RunE.serve w f nodeName ip np cfg pool kubeClient).trace)) := by
  revert h
  unfold RunE.serve
  lift_lets
  intro metricsRegistry podsOpts directPods wpOpts wp pods nodeOpts directNode wnOpts wn node
    saOpts directServiceAccounts wsaOpts wsa serviceAccounts tokenOpts createTokens cacheOpts p
    serviceAccountTokens serverOpts calls deferred
  intro h
  have hwp : ∀ x, wp = some x → x.opts = wpOpts := by
    intro x hx
    cases hw : f.watchPods <;> simp [wp, hw] at hx
    rw [← hx]
  have hwsa : ∀ x, wsa = some x → x.opts = wsaOpts := by
    intro x hx
    cases hw : f.watchServiceAccounts <;> simp [wsa, hw] at hx
    rw [← hx]
  have hp : ∀ x, p = some x → x.opts = cacheOpts ∧ f.cacheTokens = true := by
    intro x hx
    cases hw : f.cacheTokens <;> simp [p, hw] at hx
    rw [← hx]
    exact ⟨rfl, rfl⟩
  clear_value serverOpts serviceAccountTokens p cacheOpts createTokens tokenOpts
          serviceAccounts wsa wsaOpts directServiceAccounts saOpts node wn wnOpts directNode
          nodeOpts pods wp wpOpts directPods podsOpts metricsRegistry
  cases wp with
  | none =>
    cases wsa with
    | none => cases wn <;> cases p <;> simp [calls, deferred] at h
    | some sa =>
      cases p with
      | none => cases wn <;> simp [calls, deferred] at h
      | some c =>
        obtain ⟨hc1, hc2⟩ := hp c rfl
        have hsa := hwsa sa rfl
        cases wn <;> simp [calls, deferred] at h ⊢ <;> obtain ⟨rfl, rfl⟩ := h <;>
          simp [hc1, hc2, hsa]
  | some po =>
    have hpo := hwp po rfl
    cases p with
    | none => cases wn <;> cases wsa <;> simp [calls, deferred] at h
    | some c =>
      obtain ⟨hc1, hc2⟩ := hp c rfl
      cases wsa with
      | none =>
        cases wn <;> simp [calls, deferred] at h ⊢ <;> obtain ⟨rfl, rfl⟩ := h <;>
          simp [hc1, hc2, hpo]
      | some sa =>
        have hsa := hwsa sa rfl
        cases wn <;> simp [calls, deferred] at h ⊢ <;>
          rcases h with ⟨rfl, rfl⟩ | ⟨rfl, rfl⟩ <;> simp [hc1, hc2, hpo, hsa]

theorem serve_addListener_of_watch (w : World) (f : Flags) (nodeName : String) (ip : Addr)
    (np : Option Reference) (cfg : Option Config) (pool : String) (kubeClient : KubeClient)
    (hct : f.cacheTokens = true) :
    (∀ o, Action.newWatchPodsProvider o ∈
        (RunE.serve w f nodeName ip np cfg pool kubeClient).trace →
      ∃ l, Action.addListener (.pods { opts := o }) l ∈
          (RunE.serve w f nodeName ip np cfg pool kubeClient).trace) ∧
    (∀ o, Action.newWatchServiceAccountsProvider o ∈
        (RunE.serve w f nodeName ip np cfg pool kubeClient).trace →
      ∃ l, Action.addListener (.serviceAccounts { opts := o }) l ∈
          (RunE.serve w f nodeName ip np cfg pool kubeClient).trace) := by
  unfold RunE.serve
  lift_lets
  intro metricsRegistry podsOpts directPods wpOpts wp pods nodeOpts directNode wnOpts wn node
    saOpts directServiceAccounts wsaOpts wsa serviceAccounts tokenOpts createTokens cacheOpts p
    serviceAccountTokens serverOpts calls deferred
  have hwp : ∀ x, wp = some x → x = { opts := wpOpts } := by
    intro x hx
    cases hw : f.watchPods <;> simp [wp, hw] at hx
    rw [← hx]
  have hwsa : ∀ x, wsa = some x → x = { opts := wsaOpts } := by
    intro x hx
    cases hw : f.watchServiceAccounts <;> simp [wsa, hw] at hx
    rw [← hx]
  have hp : ∃ x, p = some x := by
    simp [p, hct]
  clear_value serverOpts serviceAccountTokens p cacheOpts createTokens tokenOpts
          serviceAccounts wsa wsaOpts directServiceAccounts saOpts node wn wnOpts directNode
          nodeOpts pods wp wpOpts directPods podsOpts metricsRegistry
  obtain ⟨c, rfl⟩ := hp
  constructor
  · intro o ho
    cases wp with
    | none => cases wn <;> cases wsa <;> simp [calls, deferred] at ho
    | some po =>
      have hpo := hwp po rfl
      subst hpo
      refine ⟨c, ?_⟩
      cases wn <;> cases wsa <;> simp [calls, deferred] at ho ⊢ <;> simp [ho]
  · intro o ho
    cases wsa with
    | none => cases wn <;> cases wp <;> simp [calls, deferred] at ho
    | some sa =>
      have hsa := hwsa sa rfl
      subst hsa
      refine ⟨c, ?_⟩
      cases wn <;> cases wp <;> simp [calls, deferred] at ho ⊢ <;> simp [ho]

theorem serve_exit (w : World) (f : Flags) (nodeName : String) (ip : Addr)
    (np : Option Reference) (cfg : Option Config) (pool : String) (kubeClient : KubeClient)
    (e : ConfigError) :
    (RunE.serve w f nodeName ip np cfg pool kubeClient).exit ≠ .returned (some e) := by
  unfold RunE.serve
  cases w.shutdown <;> simp

/-- The shapes of the trace of a run: empty after a validation error, the
redirect load alone when it fails, the redirect load, the client creation and
the deferred close when the client creation fails, and otherwise the trace of
the rest of the run on the validated values. -/
theorem RunE_trace_cases (w : World) (f : Flags) :
    (∃ e, RunE w f = { exit := .returned (some e), trace := [] }) ∨
    (∃ ip pool, EnvironmentPasses w ip ∧
      ¬ ExactlyOneEmpty f.nodePoolServiceAccountName f.nodePoolServiceAccountNamespace ∧
      IsProviderName f.workloadIdentityProvider ∧
      ((∃ cause, w.loadAndAttachBPF ip f.serverPort w.debug = some cause ∧
          RunE w f = { exit := .fatal (.loadBPF cause),
                       trace := [.loadAndAttachBPF ip f.serverPort w.debug] }) ∨
       (∃ cause, w.loadAndAttachBPF ip f.serverPort w.debug = none ∧
          w.createKubernetesClient = .error cause ∧
          RunE w f = { exit := .fatal (.kubeClient cause),
                       trace := [.loadAndAttachBPF ip f.serverPort w.debug,
                                 .createKubernetesClient, .closeBPF] }) ∨
       (∃ kubeClient, w.loadAndAttachBPF ip f.serverPort w.debug = none ∧
          w.createKubernetesClient = .ok kubeClient ∧
          RunE w f = RunE.serve w f (w.getenv "NODE_NAME") ip
            (nodePoolServiceAccountOf f.nodePoolServiceAccountName
              f.nodePoolServiceAccountNamespace)
            (some { opts := { WorkloadIdentityProvider := f.workloadIdentityProvider } })
            pool kubeClient))) := by
  rcases RunE_cases w f with h | ⟨ip, pool, henv, hflags, hprov, hrun⟩
  · exact Or.inl h
  · refine Or.inr ⟨ip, pool, henv, hflags, hprov, ?_⟩
    rw [hrun]
    unfold RunE.runtime
    cases hbpf : w.loadAndAttachBPF ip f.serverPort w.debug with
    | some cause => exact Or.inl ⟨cause, rfl, rfl⟩
    | none =>
      cases hkube : w.createKubernetesClient with
      | error cause => exact Or.inr (Or.inl ⟨cause, rfl, rfl, rfl⟩)
      | ok kubeClient => exact Or.inr (Or.inr ⟨kubeClient, rfl, rfl, rfl⟩)

theorem RunE_error_trace_nil (w : World) (f : Flags) (e : ConfigError)
    (h : (RunE w f).exit = .returned (some e)) : (RunE w f).trace = [] := by
  rcases RunE_trace_cases w f with ⟨e1, h1⟩ | ⟨ip, pool, -, -, -, h2⟩
  · rw [h1]
  · rcases h2 with ⟨c, -, h2⟩ | ⟨c, -, -, h2⟩ | ⟨k, -, -, h2⟩
    · rw [h2] at h
      cases h
    · rw [h2] at h
      cases h
    · rw [h2] at h
      exact absurd h (serve_exit _ _ _ _ _ _ _ _ _)

theorem RunE_listeners_before_start (w : World) (f : Flags) :
    listenersBeforeStarts (RunE w f).trace = true := by
  rcases RunE_trace_cases w f with ⟨e1, h1⟩ | ⟨ip, pool, -, -, -, h2⟩
  · rw [h1]
    rfl
  · rcases h2 with ⟨c, -, h2⟩ | ⟨c, -, -, h2⟩ | ⟨k, -, -, h2⟩
    · rw [h2]
      rfl
    · rw [h2]
      rfl
    · rw [h2]
      exact serve_listeners_before_start _ _ _ _ _ _ _ _

theorem RunE_addListener (w : World) (f : Flags) (t : Watched) (l : CacheTokensProvider)
    (h : Action.addListener t l ∈ (RunE w f).trace) :
    f.cacheTokens = true ∧
    Action.newCacheTokensProvider l.opts ∈ (RunE w f).trace ∧
    ((∃ x, t = .pods x ∧ Action.newWatchPodsProvider x.opts ∈ (RunE w f).trace) ∨
     (∃ x, t = .serviceAccounts x ∧
        Action.newWatchServiceAccountsProvider x.opts ∈ (RunE w f).trace)) := by
  rcases RunE_trace_cases w f with ⟨e1, h1⟩ | ⟨ip, pool, -, -, -, h2⟩
  · rw [h1] at h
    simp at h
  · rcases h2 with ⟨c, -, h2⟩ | ⟨c, -, -, h2⟩ | ⟨k, -, -, h2⟩
    · rw [h2] at h
      simp at h
    · rw [h2] at h
      simp at h
    · rw [h2] at h ⊢
      exact serve_addListener _ _ _ _ _ _ _ _ _ _ h

theorem RunE_addListener_of_watch (w : World) (f : Flags) (hct : f.cacheTokens = true) :
    (∀ o, Action.newWatchPodsProvider o ∈ (RunE w f).trace →
      ∃ l, Action.addListener (.pods { opts := o }) l ∈ (RunE w f).trace) ∧
    (∀ o, Action.newWatchServiceAccountsProvider o ∈ (RunE w f).trace →
      ∃ l, Action.addListener (.serviceAccounts { opts := o }) l ∈ (RunE w f).trace) := by
  rcases RunE_trace_cases w f with ⟨e1, h1⟩ | ⟨ip, pool, -, -, -, h2⟩
  · rw [h1]
    simp
  · rcases h2 with ⟨c, -, h2⟩ | ⟨c, -, -, h2⟩ | ⟨k, -, -, h2⟩
    · rw [h2]
      simp
    · rw [h2]
      simp
    · rw [h2]
      exact serve_addListener_of_watch _ _ _ _ _ _ _ _ hct

theorem runtime_exit (w : World) (f : Flags) (nodeName : String) (ip : Addr)
    (np : Option Reference) (cfg : Option Config) (pool : String) (e : ConfigError) :
    (RunE.runtime w f nodeName ip np cfg pool).exit ≠ .returned (some e) := by
  unfold RunE.runtime
  cases w.loadAndAttachBPF ip f.serverPort w.debug with
  | some cause => simp
  | none =>
    cases w.createKubernetesClient with
    | error cause => simp
    | ok kubeClient => exact serve_exit _ _ _ _ _ _ _ _ _

/-- Once the checks of NODE_NAME and POD_IP pass, the run ends in one of three
ways: the flags error when exactly one flag is empty, the format error when the
provider name is rejected, and no returned error at all otherwise. -/
theorem RunE_exit_of_env (w : World) (f : Flags) (ip : Addr) (henv : EnvironmentPasses w ip) :
    (ExactlyOneEmpty f.nodePoolServiceAccountName f.nodePoolServiceAccountNamespace ∧
      (RunE w f).exit = .returned (some .nodePoolServiceAccountFlags)) ∨
    (¬ ExactlyOneEmpty f.nodePoolServiceAccountName f.nodePoolServiceAccountNamespace ∧
      ¬ IsProviderName f.workloadIdentityProvider ∧
      (RunE w f).exit = .returned (some (.newConfig formatError))) ∨
    (¬ ExactlyOneEmpty f.nodePoolServiceAccountName f.nodePoolServiceAccountNamespace ∧
      IsProviderName f.workloadIdentityProvider ∧
      ∀ e, (RunE w f).exit ≠ .returned (some e)) := by
  by_cases hflags : ExactlyOneEmpty f.nodePoolServiceAccountName f.nodePoolServiceAccountNamespace
  · exact Or.inl ⟨hflags, by rw [RunE_flags_inconsistent w f ip henv hflags]⟩
  by_cases hprov : IsProviderName f.workloadIdentityProvider
  · obtain ⟨pool, -, hrun⟩ := RunE_valid w f ip henv hflags hprov
    refine Or.inr (Or.inr ⟨hflags, hprov, fun e => ?_⟩)
    rw [hrun]
    exact runtime_exit _ _ _ _ _ _ _ _
  · exact Or.inr (Or.inl ⟨hflags, hprov, by rw [RunE_provider_rejected w f ip henv hflags hprov]⟩)

theorem is6_not_is4 (ip : Addr) (h : ip.Is6 = true) : ip.Is4 = false := by
  unfold Addr.Is6 at h
  unfold Addr.Is4
  cases hz : ip.z <;> simp [hz] at h ⊢

/-- C7: the validation returns an environment error exactly when NODE_NAME is
empty, POD_IP is empty, POD_IP does not parse, or the parsed address is not IPv4
(every IPv6 address, the IPv4-mapped ones included, is not IPv4); it passes this
stage exactly when NODE_NAME is non-empty and POD_IP parses to an IPv4 address. -/
theorem environment_validation (w : World) (f : Flags) :
    (w.getenv "NODE_NAME" = "" → (RunE w f).exit = .returned (some .nodeNameMissing)) ∧
    (w.getenv "NODE_NAME" ≠ "" → w.getenv "POD_IP" = "" →
      (RunE w f).exit = .returned (some .podIPMissing)) ∧
    (∀ cause, w.getenv "NODE_NAME" ≠ "" → w.getenv "POD_IP" ≠ "" →
      w.parseAddr (w.getenv "POD_IP") = .error cause →
      (RunE w f).exit = .returned (some (.podIPParse cause))) ∧
    (∀ ip, w.getenv "NODE_NAME" ≠ "" → w.getenv "POD_IP" ≠ "" →
      w.parseAddr (w.getenv "POD_IP") = .ok ip → (ip.Is4 = false ∨ ip.Is6 = true ∨ ip.Is4In6 = true) →
      (RunE w f).exit = .returned (some .podIPNotIPv4)) ∧
    ((∃ e, (RunE w f).exit = .returned (some e) ∧ e.isEnvironment = true) ↔
      (w.getenv "NODE_NAME" = "" ∨ w.getenv "POD_IP" = "" ∨
        (∃ cause, w.parseAddr (w.getenv "POD_IP") = .error cause) ∨
        (∃ ip, w.parseAddr (w.getenv "POD_IP") = .ok ip ∧ ip.Is4 = false))) ∧
    ((¬ ∃ e, (RunE w f).exit = .returned (some e) ∧ e.isEnvironment = true) ↔
      ∃ ip, EnvironmentPasses w ip) := by
  have hnot4 : ∀ ip : Addr, (ip.Is4 = false ∨ ip.Is6 = true ∨ ip.Is4In6 = true) →
      ip.Is4 = false := by
    intro ip h
    rcases h with h | h | h
    · exact h
    · exact is6_not_is4 ip h
    · apply is6_not_is4
      unfold Addr.Is4In6 at h
      simp only [Bool.and_eq_true] at h
      exact h.1.1
  have hpass : ∀ ip, EnvironmentPasses w ip →
      ¬ ∃ e, (RunE w f).exit = .returned (some e) ∧ e.isEnvironment = true := by
    rintro ip henv ⟨e, he, hee⟩
    rcases RunE_exit_of_env w f ip henv with ⟨-, h1⟩ | ⟨-, -, h2⟩ | ⟨-, -, h3⟩
    · rw [h1] at he
      cases he
      cases hee
    · rw [h2] at he
      cases he
      cases hee
    · exact h3 e he
  have hcases : (w.getenv "NODE_NAME" = "" ∨ w.getenv "POD_IP" = "" ∨
        (∃ cause, w.parseAddr (w.getenv "POD_IP") = .error cause) ∨
        (∃ ip, w.parseAddr (w.getenv "POD_IP") = .ok ip ∧ ip.Is4 = false)) ∨
      ∃ ip, EnvironmentPasses w ip := by
    by_cases hnode : w.getenv "NODE_NAME" = ""
    · exact Or.inl (Or.inl hnode)
    by_cases hpod : w.getenv "POD_IP" = ""
    · exact Or.inl (Or.inr (Or.inl hpod))
    cases hparse : w.parseAddr (w.getenv "POD_IP") with
    | error cause => exact Or.inl (Or.inr (Or.inr (Or.inl ⟨cause, rfl⟩)))
    | ok ip =>
      cases hip : ip.Is4 with
      | false => exact Or.inl (Or.inr (Or.inr (Or.inr ⟨ip, rfl, hip⟩)))
      | true => exact Or.inr ⟨ip, hnode, hpod, hparse, hip⟩
  have hfail : (w.getenv "NODE_NAME" = "" ∨ w.getenv "POD_IP" = "" ∨
        (∃ cause, w.parseAddr (w.getenv "POD_IP") = .error cause) ∨
        (∃ ip, w.parseAddr (w.getenv "POD_IP") = .ok ip ∧ ip.Is4 = false)) →
      ∃ e, (RunE w f).exit = .returned (some e) ∧ e.isEnvironment = true := by
    intro h
    by_cases hnode : w.getenv "NODE_NAME" = ""
    · exact ⟨.nodeNameMissing, by rw [RunE_nodeName_empty w f hnode], rfl⟩
    by_cases hpod : w.getenv "POD_IP" = ""
    · exact ⟨.podIPMissing, by rw [RunE_podIP_empty w f hnode hpod], rfl⟩
    cases hparse : w.parseAddr (w.getenv "POD_IP") with
    | error cause =>
      exact ⟨.podIPParse cause, by rw [RunE_parse_error w f cause hnode hpod hparse], rfl⟩
    | ok ip =>
      cases hip : ip.Is4 with
      | false =>
        exact ⟨.podIPNotIPv4, by rw [RunE_not_ipv4 w f ip hnode hpod hparse hip], rfl⟩
      | true =>
        rcases h with h | h | ⟨c, h⟩ | ⟨ip1, h, h4⟩
        · exact absurd h hnode
        · exact absurd h hpod
        · rw [hparse] at h
          cases h
        · rw [hparse] at h
          cases h
          rw [hip] at h4
          cases h4
  refine ⟨?_, ?_, ?_, ?_, ⟨?_, hfail⟩, ?_, ?_⟩
  · intro h
    rw [RunE_nodeName_empty w f h]
  · intro h1 h2
    rw [RunE_podIP_empty w f h1 h2]
  · intro cause h1 h2 h3
    rw [RunE_parse_error w f cause h1 h2 h3]
  · intro ip h1 h2 h3 h4
    rw [RunE_not_ipv4 w f ip h1 h2 h3 (hnot4 ip h4)]
  · intro h
    rcases hcases with hc | ⟨ip, henv⟩
    · exact hc
    · exact absurd h (hpass ip henv)
  · intro h
    rcases hcases with hc | hc
    · exact absurd (hfail hc) h
    · exact hc
  · rintro ⟨ip, henv⟩
    exact hpass ip henv

/-- C7, at the IPv4-mapped IPv6 form of the pod address: the run returns the
error that POD_IP must be an IPv4 address. -/
theorem environment_validation_witness :
    (RunE sampleWorldMapped sampleFlags).exit = .returned (some .podIPNotIPv4) :=
  (environment_validation sampleWorldMapped sampleFlags).2.2.2.1
    { hi := 0, lo := 0xffff0a000001, z := .z6noz } (by decide) (by decide) rfl
    (Or.inr (Or.inr (by decide)))

/-- C8: when validation fails, for any of the listed reasons, `RunE` returns the
error and its trace is empty: no redirect load, no client creation, no provider
construction or start, no server creation. -/
theorem validation_failure_before_any_action (w : World) (f : Flags)
    (h : ValidationFails w f) :
    ∃ e, (RunE w f).exit = .returned (some e) ∧ (RunE w f).trace = [] := by
  rcases RunE_cases w f with ⟨e, he⟩ | ⟨ip, pool, ⟨hnode, hpod, hparse, hip⟩, hflags, hprov, -⟩
  · exact ⟨e, by rw [he], by rw [he]⟩
  · rcases h with h | h | ⟨c, h⟩ | ⟨ip1, h, h4⟩ | h | ⟨r, hr, herr⟩
    · exact absurd h hnode
    · exact absurd h hpod
    · rw [hparse] at h
      cases h
    · rw [hparse] at h
      cases h
      rw [hip] at h4
      cases h4
    · exact absurd h hflags
    · obtain ⟨d, pl, pv, c1, c2, c3, c4, c5, c6, c7⟩ := (isProviderName_iff _).1 hprov
      rw [NewConfig_of_shape _ d pl pv c1 c2 c3 c4 c5 c6 c7] at hr
      cases hr
      exact absurd rfl herr

/-- C8, at the default (empty) provider name: the run returns an error and has
an empty trace. -/
theorem validation_failure_before_any_action_witness :
    ∃ e, (RunE sampleWorld nodePoolOnlyFlags).exit = .returned (some e) ∧
      (RunE sampleWorld nodePoolOnlyFlags).trace = [] :=
  validation_failure_before_any_action sampleWorld nodePoolOnlyFlags
    (Or.inr (Or.inr (Or.inr (Or.inr (Or.inr
      ⟨{ config := none, workloadIdentityPool := "", err := some formatError },
        by decide, by decide⟩)))))

/-- C10: in the trace of a run every `AddListener` call precedes every `Start`
call; a listener is registered only with token caching enabled, it is the token
cache provider constructed in the run, and it is registered on the watched pod
provider and on the watched service account provider constructed in the run,
on each of them when caching is enabled, and never on the node provider. -/
theorem listeners_registered_before_start (w : World) (f : Flags) :
    (∀ (i j : Nat) (t t1 : Watched) (l : CacheTokensProvider),
      (RunE w f).trace[i]? = some (.addListener t l) →
      (RunE w f).trace[j]? = some (.start t1) → i < j) ∧
    (∀ t l, Action.addListener t l ∈ (RunE w f).trace →
      f.cacheTokens = true ∧
      Action.newCacheTokensProvider l.opts ∈ (RunE w f).trace ∧
      ((∃ x, t = .pods x ∧ Action.newWatchPodsProvider x.opts ∈ (RunE w f).trace) ∨
       (∃ x, t = .serviceAccounts x ∧
          Action.newWatchServiceAccountsProvider x.opts ∈ (RunE w f).trace))) ∧
    (f.cacheTokens = true →
      (∀ o, Action.newWatchPodsProvider o ∈ (RunE w f).trace →
        ∃ l, Action.addListener (.pods { opts := o }) l ∈ (RunE w f).trace) ∧
      (∀ o, Action.newWatchServiceAccountsProvider o ∈ (RunE w f).trace →
        ∃ l, Action.addListener (.serviceAccounts { opts := o }) l ∈ (RunE w f).trace)) ∧
    (∀ x l, Action.addListener (.node x) l ∉ (RunE w f).trace) := by
  refine ⟨?_, RunE_addListener w f, RunE_addListener_of_watch w f, ?_⟩
  · intro i j t t1 l hi hj
    exact listenersBeforeStarts_index _ (RunE_listeners_before_start w f) i j _ _ hi rfl hj rfl
  · intro x l h
    obtain ⟨-, -, h1⟩ := RunE_addListener w f _ _ h
    rcases h1 with ⟨y, hy, -⟩ | ⟨y, hy, -⟩ <;> cases hy

/-- C10, at the sample flags (every watch and the token cache on): the trace has
an `AddListener` call at offset 12 and a `Start` call at offset 13. -/
theorem listeners_registered_before_start_witness :
    ∃ t t1 l, (RunE sampleWorld sampleFlags).trace[12]? = some (.addListener t l) ∧
      (RunE sampleWorld sampleFlags).trace[13]? = some (.start t1) ∧ 12 < 13 :=
  ⟨_, _, _, rfl, rfl,
    (listeners_registered_before_start sampleWorld sampleFlags).1 12 13 _ _ _ rfl rfl⟩

end GkeMetadataServer
